import Mathlib

/-!
Shallow embedding, in Lean 4, of the core of the `minescratchtest` Minecraft
server (Python).  Pure functions of the source are translated to Lean
functions; the mutable objects (`BlockManager`, `World`) become explicit
state passing.  Python's arbitrary-precision integers are `ℤ`/`ℕ`; Python
floats are modelled as exact rationals `ℚ` (the claims under study do not
hinge on IEEE rounding); Python loops that may not terminate are given an
explicit fuel argument and return `Option`; Python code that can raise
(`struct.pack` range errors) returns `Option`.

Correspondence of Python operators used throughout:
  `a // b` (floor division, positive `b`)  ↦  `a / b` on `ℤ` (Euclidean = floor for `b > 0`)
  `a % b`  (floored modulo, positive `b`)  ↦  `a % b` on `ℤ`
  `a & 0x7F` / `a & 0xFF` on a non-negative int ↦ `&&&`
  `a >>= 7` (arithmetic shift)             ↦  `Int.fdiv a 128`
  `int(q)`  (truncation toward zero)       ↦  `pyInt q`
  `math.floor(q)`                          ↦  `⌊q⌋`
  `q % m` on floats, `m > 0`               ↦  `pyModQ q m`
-/

/-- Python `int(q)` on an exact rational: truncation toward zero
(`math.floor` for non-negative arguments, `math.ceil` for negative ones). -/
def pyInt (q : ℚ) : ℤ :=
  if q < 0 then ⌈q⌉ else ⌊q⌋

/-- Python `a % m` on exact rationals with a positive modulus `m`
(floored modulo, result in `[0, m)`). -/
def pyModQ (a m : ℚ) : ℚ :=
  a - m * ⌊a / m⌋

/-! ## Protocol codec: variable-length integers (`minecraft_protocol.py`)

`ProtocolWriter.write_varint` first zero-extends a negative argument to 32
bits (`value += 0x100000000`) and then runs the 7-bits-per-byte emission
loop; on the values this produces, `value & 0x7F` is `value % 128` and
`value >>= 7` is `value / 128`.  `ProtocolWriter.write_varlong` runs the
same kind of loop directly on the (signed) argument with Python's
arbitrary-precision arithmetic shift, so it is modelled on `ℤ` with
`Int.emod`/`Int.fdiv` and an explicit fuel. -/

/-- Byte-emission loop of `ProtocolWriter.write_varint`, after the
zero-extension of negatives, on a non-negative value:
`byte = value & 0x7F; value >>= 7; if value != 0: byte |= 0x80; append byte;
break when value == 0`. -/
def write_varint_nat (value : ℕ) : List ℕ :=
  if h : value / 128 = 0 then [value % 128]
  else (value % 128 ||| 0x80) :: write_varint_nat (value / 128)
decreasing_by
  exact Nat.div_lt_self (Nat.pos_of_ne_zero (fun h0 => h (by simp [h0]))) (by norm_num)

/-- The same loop as `write_varint_nat`, but on a Python (signed, arbitrary
precision) integer with explicit fuel, as actually written in
`ProtocolWriter.write_varint`: the loop never terminates once the running
value becomes negative, which the fuel makes observable as `none`. -/
def write_varint_step (fuel : ℕ) (value : ℤ) (acc : List ℕ) : Option (List ℕ) :=
  match fuel with
  | 0 => none
  | fuel + 1 =>
    let byte := (value % 128).toNat
    let value' := Int.fdiv value 128
    if value' = 0 then some (acc ++ [byte])
    else write_varint_step fuel value' (acc ++ [byte ||| 0x80])

/-- `ProtocolWriter.write_varint`: zero-extend a negative value to 32 bits,
then emit 7 bits per byte, little-endian, high bit = continuation. -/
def write_varint (fuel : ℕ) (value : ℤ) : Option (List ℕ) :=
  write_varint_step fuel (if value < 0 then value + 0x100000000 else value) []

/-- Byte-emission loop of `ProtocolWriter.write_varlong`:
`byte = value & 0x7F; value >>= 7; if value == 0 and (byte & 0x80) == 0:
append byte and stop, else append byte | 0x80 and continue`.  Unlike
`write_varint` there is no zero-extension of negative arguments. -/
def write_varlong_step (fuel : ℕ) (value : ℤ) (acc : List ℕ) : Option (List ℕ) :=
  match fuel with
  | 0 => none
  | fuel + 1 =>
    let byte := (value % 128).toNat
    let value' := Int.fdiv value 128
    if value' = 0 ∧ byte &&& 0x80 = 0 then some (acc ++ [byte])
    else write_varlong_step fuel value' (acc ++ [byte ||| 0x80])

/-- `ProtocolWriter.write_varlong` with explicit fuel bounding the number of
loop iterations (the docstring promises at most 10 bytes). -/
def write_varlong (fuel : ℕ) (value : ℤ) : Option (List ℕ) :=
  write_varlong_step fuel value []

/-- Loop of `ProtocolReader.read_varint`: accumulate `(byte & 0x7F) << shift`,
stop on a clear continuation bit, and raise (`none`) when the shift would
reach 32 with the continuation bit still set, or on truncated data. -/
def read_varint_loop : List ℕ → ℕ → ℕ → Option ℕ
  | [], _, _ => none
  | byte :: rest, shift, acc =>
    let result := acc ||| ((byte &&& 0x7F) <<< shift)
    if byte &&& 0x80 = 0 then some result
    else if 32 ≤ shift + 7 then none
    else read_varint_loop rest (shift + 7) result

/-- `ProtocolReader.read_varint`: decode the 7-bit groups, then reinterpret
the 32-bit result as signed two's complement. -/
def read_varint (data : List ℕ) : Option ℤ :=
  match read_varint_loop data 0 0 with
  | none => none
  | some result =>
    some (if result &&& 0x80000000 ≠ 0 then (result : ℤ) - 0x100000000 else (result : ℤ))

/-! ## Protocol codec: angle (`ProtocolWriter.write_angle`) -/

/-- `ProtocolWriter.write_angle`: `int((angle % 360.0) / 360.0 * 256) & 0xFF`
(reduction `& 0xFF` of a Python int is its residue mod 256). -/
def write_angle (angle : ℚ) : ℤ :=
  pyInt (pyModQ angle 360 / 360 * 256) % 256

/-- Encoding of an angle as the specification words it: the fraction of a
full turn quantized to 1/256 with rounding to nearest,
`round((degrees mod 360) / 360 * 256) mod 256`. -/
def angle_byte_claim (angle : ℚ) : ℤ :=
  round (pyModQ angle 360 / 360 * 256) % 256

/-! ## Terrain generator (`terrain_generator.py`)

`TerrainGenerator.generate_height_map` computes, per column, a surface
height from two noise samples.  The noise itself comes from the external C
`noise` library (`noise.pnoise2`), so the two samples are parameters here
(`noise_value` from `_get_noise`, in `[-1, 1]`, and `mountain_noise` from
`_get_mountain_noise`, in `[0, 1]`); everything after the sampling is
translated verbatim. -/

/-- Noise and height parameters of `TerrainGenerator.__init__` that feed the
per-column height computation (scales, seed, octaves only feed the abstracted
noise sampling). -/
structure TerrainParams where
  amplitude : ℤ
  base_height : ℤ
  mountain_amplitude : ℤ
  mountain_threshold : ℚ
deriving DecidableEq

/-- Default constructor arguments: `amplitude=16, base_height=64,
mountain_amplitude=300, mountain_threshold=0.5`. -/
def terrain_default_params : TerrainParams :=
  ⟨16, 64, 300, 1/2⟩

/-- Body of `generate_height_map`, effective amplitude: if
`mountain_noise > self.mountain_threshold` then
`self.amplitude + int(self.mountain_amplitude * mountain_factor)` with
`mountain_factor = (mountain_noise - threshold) / (1.0 - threshold)`,
else `self.amplitude`. -/
def effective_amplitude (p : TerrainParams) (mountain_noise : ℚ) : ℤ :=
  if mountain_noise > p.mountain_threshold then
    p.amplitude +
      pyInt ((p.mountain_amplitude : ℚ) *
        ((mountain_noise - p.mountain_threshold) / (1 - p.mountain_threshold)))
  else p.amplitude

/-- Body of `generate_height_map`, per-column height:
`height = int(self.base_height + noise_value * effective_amplitude)` then
`height = max(0, min(255, height))`. -/
def column_height (p : TerrainParams) (noise_value mountain_noise : ℚ) : ℤ :=
  max 0 (min 255 (pyInt ((p.base_height : ℚ) +
    noise_value * (effective_amplitude p mountain_noise : ℚ))))

/-- Per-column height as the claim words it: effective amplitude
`A = base_amp + f * mtn_amp` taken exactly (no truncation) and the height
term rounded to nearest, `clamp(base_height + round(n_base * A), 0, 255)`. -/
def column_height_claim (p : TerrainParams) (noise_value mountain_noise : ℚ) : ℤ :=
  max 0 (min 255 (p.base_height + round (noise_value *
    (if mountain_noise > p.mountain_threshold then
      (p.amplitude : ℚ) +
        ((mountain_noise - p.mountain_threshold) / (1 - p.mountain_threshold)) *
          (p.mountain_amplitude : ℚ)
    else (p.amplitude : ℚ)))))

/-- Truncation toward zero of an exact rational, written as T-division of
numerator by denominator. -/
def ratTrunc (q : ℚ) : ℤ :=
  q.num.tdiv q.den

/-- Per-column height as amended: both the effective-amplitude contribution
and the height term are truncated toward zero, so
`A = base_amp + trunc(f * mtn_amp)` (an integer) when the mountain noise
exceeds the threshold, else `A = base_amp`, and the height is
`clamp(trunc(base_height + n_base * A), 0, 255)`. -/
def column_height_amended (p : TerrainParams) (noise_value mountain_noise : ℚ) : ℤ :=
  min 255 (max 0 (ratTrunc ((p.base_height : ℚ) + noise_value *
    ((if mountain_noise > p.mountain_threshold then
      p.amplitude +
        ratTrunc (((mountain_noise - p.mountain_threshold) / (1 - p.mountain_threshold)) *
          (p.mountain_amplitude : ℚ))
    else p.amplitude : ℤ) : ℚ))))

/-! ## Association-list dictionaries

Python `dict`s (`block_data`, `item_entities`, `entity_collision_cache`) are
modelled as association lists with first-match lookup; `dset` is in-place
update (append on a fresh key), `dpop` is `dict.pop(key, None)`. -/

def dget {κ β : Type} [DecidableEq κ] : List (κ × β) → κ → Option β
  | [], _ => none
  | (k', v) :: rest, k => if k' = k then some v else dget rest k

def dset {κ β : Type} [DecidableEq κ] : List (κ × β) → κ → β → List (κ × β)
  | [], k, v => [(k, v)]
  | (k', v') :: rest, k, v => if k' = k then (k, v) :: rest else (k', v') :: dset rest k v

def dpop {κ β : Type} [DecidableEq κ] : List (κ × β) → κ → List (κ × β)
  | [], _ => []
  | (k', v') :: rest, k => if k' = k then rest else (k', v') :: dpop rest k

/-! ## Block manager (`PythonServer/block_manager.py`)

`BlockManager` keeps sections in `block_data` keyed by
`(chunk_x, chunk_z, section_y)` and mutated world coordinates in
`updated_blocks` (a Python set, modelled as a duplicate-free insert list).
The `TerrainGenerator` is kept behind the two noise-derived samplings the
block manager consumes (`generate_height_map` and `get_slope_at`), since the
noise itself is the external C `noise` library; everything downstream of
those samples is translated verbatim. -/

/-- Interface of `TerrainGenerator` as consumed by `BlockManager`:
`height_map cx cz z x` is `generate_height_map(cx, cz)[z][x]`, and
`slope_at wx wz` is `get_slope_at(wx, wz)`. -/
structure TerrainOracle where
  height_map : ℤ → ℤ → ℕ → ℕ → ℤ
  slope_at : ℚ → ℚ → ℚ

/-- State of `BlockManager.__init__`. -/
structure BlockManager where
  block_data : List ((ℤ × ℤ × ℤ) × List ℕ)
  updated_blocks : List (ℤ × ℤ × ℤ)
  terrain_generator : Option TerrainOracle

/-- Block state id constants of `BlockManager.__init__`. -/
def BLOCK_AIR : ℕ := 0

def BLOCK_DIRT : ℕ := 2105

def BLOCK_GRASS_BLOCK : ℕ := 2098

def BLOCK_STONE : ℕ := 1

def BLOCK_WHITE_WOOL : ℕ := 2093

def BLOCK_YELLOW_WOOL : ℕ := 2097

def BLOCK_WATER : ℕ := 86

/-- Result tuple of `BlockManager._world_to_local_coords`. -/
structure LocalCoords where
  chunk_x : ℤ
  chunk_z : ℤ
  section_y : ℤ
  local_x : ℤ
  local_y : ℤ
  local_z : ℤ

/-- `BlockManager._world_to_local_coords`: `chunk_x = x // 16`,
`chunk_z = z // 16`, `section_y = (y + 64) // 16`, `local_x = x % 16`
(bumped by 16 if negative — dead with Python's floored `%`), likewise
`local_z`, and `local_y = y - (-64 + section_y * 16)`. -/
def world_to_local_coords (x y z : ℤ) : LocalCoords :=
  let chunk_x := x / 16
  let chunk_z := z / 16
  let section_y := (y + 64) / 16
  let lx0 := x % 16
  let local_x := if lx0 < 0 then lx0 + 16 else lx0
  let lz0 := z % 16
  let local_z := if lz0 < 0 then lz0 + 16 else lz0
  let section_y_min := -64 + section_y * 16
  let local_y := y - section_y_min
  ⟨chunk_x, chunk_z, section_y, local_x, local_y, local_z⟩

/-- `BlockManager._calculate_block_index`: `y * 256 + z * 16 + x`. -/
def calculate_block_index (local_x local_y local_z : ℤ) : ℤ :=
  local_y * 256 + local_z * 16 + local_x

/-- `BlockManager._get_section_y_range`. -/
def get_section_y_range (section_y : ℤ) : ℤ × ℤ :=
  (-64 + section_y * 16, -64 + section_y * 16 + 15)

/-- Linear index of the block at world `(x, y, z)` inside its section. -/
def block_index_at (x y z : ℤ) : ℤ :=
  let c := world_to_local_coords x y z
  calculate_block_index c.local_x c.local_y c.local_z

/-- Section key of the block at world `(x, y, z)`. -/
def section_key_at (x y z : ℤ) : ℤ × ℤ × ℤ :=
  let c := world_to_local_coords x y z
  (c.chunk_x, c.chunk_z, c.section_y)

/-- `BlockManager.get_block`: air when the section is not resident, air when
the index misses the section bounds, otherwise the stored entry. -/
def BlockManager.get_block (bm : BlockManager) (x y z : ℤ) : ℕ :=
  let c := world_to_local_coords x y z
  match dget bm.block_data (c.chunk_x, c.chunk_z, c.section_y) with
  | none => BLOCK_AIR
  | some block_data =>
    let idx := calculate_block_index c.local_x c.local_y c.local_z
    if 0 ≤ idx ∧ idx < (block_data.length : ℤ) then block_data.getD idx.toNat BLOCK_AIR
    else BLOCK_AIR

/-- `BlockManager.is_block_solid`: any non-air block is solid. -/
def BlockManager.is_block_solid (bm : BlockManager) (x y z : ℤ) : Bool :=
  bm.get_block x y z != BLOCK_AIR

/-- `BlockManager._get_surface_block`: white wool at or above the snow
threshold 90, yellow wool at or below sea level 64, otherwise dirt on steep
slopes (`get_slope_at` of the block center at or above 4) and grass
elsewhere.  The `height_map` parameter of the Python function is unused by
its final code (the slope is sampled from the noise instead). -/
def get_surface_block (tg : TerrainOracle) (_hm : ℕ → ℕ → ℤ) (x z : ℕ)
    (surface_height : ℤ) (chunk_x chunk_z : ℤ) : ℕ :=
  if surface_height ≥ 90 then BLOCK_WHITE_WOOL
  else if surface_height ≤ 64 then BLOCK_YELLOW_WOOL
  else
    let world_x : ℚ := chunk_x * 16 + x + 1/2
    let world_z : ℚ := chunk_z * 16 + z + 1/2
    let max_slope := tg.slope_at world_x world_z
    if max_slope ≥ 4 then BLOCK_DIRT else BLOCK_GRASS_BLOCK

/-- `BlockManager.generate_initial_chunk_section`: a fresh 4096-entry
section.  With `use_terrain` and a terrain generator present, each cell is
water/air above the surface, the surface block at it, dirt in the three
cells below it and stone further down.  Otherwise, in flat mode, the section
holding `ground_y` gets a dirt layer at `ground_y - 1` and a grass layer at
`ground_y`, sections strictly below `ground_y - 1` are solid dirt, and
anything else stays air. -/
def generate_initial_chunk_section (bm : BlockManager) (chunk_x chunk_z section_y : ℤ)
    (ground_y : ℤ) (flat_world use_terrain : Bool) : List ℕ :=
  let r := get_section_y_range section_y
  let section_y_min := r.1
  let section_y_max := r.2
  let block_data : List ℕ := List.replicate 4096 BLOCK_AIR
  match use_terrain, bm.terrain_generator with
  | true, some tg =>
    let hm := tg.height_map chunk_x chunk_z
    (List.range 16).foldl (fun bd (y : ℕ) =>
      let world_y := section_y_min + (y : ℤ)
      (List.range 16).foldl (fun bd (z : ℕ) =>
        (List.range 16).foldl (fun bd (x : ℕ) =>
          let surface_height := hm z x
          let idx := (calculate_block_index (x : ℤ) (y : ℤ) (z : ℤ)).toNat
          bd.set idx
            (if world_y > surface_height then
              (if world_y < 64 then BLOCK_WATER else BLOCK_AIR)
            else if world_y = surface_height then
              get_surface_block tg hm x z surface_height chunk_x chunk_z
            else if world_y ≥ surface_height - 3 then BLOCK_DIRT
            else BLOCK_STONE)) bd) bd) block_data
  | _, _ =>
    if flat_world ∧ section_y_min ≤ ground_y ∧ ground_y ≤ section_y_max then
      (List.range 16).foldl (fun bd (y : ℕ) =>
        let world_y := section_y_min + (y : ℤ)
        if world_y = ground_y - 1 then
          (List.range 16).foldl (fun bd (z : ℕ) =>
            (List.range 16).foldl (fun bd (x : ℕ) =>
              bd.set (calculate_block_index (x : ℤ) (y : ℤ) (z : ℤ)).toNat BLOCK_DIRT) bd) bd
        else if world_y = ground_y then
          (List.range 16).foldl (fun bd (z : ℕ) =>
            (List.range 16).foldl (fun bd (x : ℕ) =>
              bd.set (calculate_block_index (x : ℤ) (y : ℤ) (z : ℤ)).toNat
                BLOCK_GRASS_BLOCK) bd) bd
        else bd) block_data
    else if flat_world ∧ section_y_min < ground_y - 1 then
      List.replicate 4096 BLOCK_DIRT
    else block_data

/-- `BlockManager.set_block`: materialize the section when absent (lazy
fill, always with `generate_initial_chunk_section(chunk_x, chunk_z,
section_y, ground_y=64)`, i.e. the flat defaults), then write the entry and
record the coordinate in `updated_blocks`. -/
def BlockManager.set_block (bm : BlockManager) (x y z : ℤ) (block_state_id : ℕ) :
    Bool × BlockManager :=
  let c := world_to_local_coords x y z
  let key := (c.chunk_x, c.chunk_z, c.section_y)
  let bm1 :=
    match dget bm.block_data key with
    | none =>
      let filled := generate_initial_chunk_section bm c.chunk_x c.chunk_z c.section_y 64 true false
      { bm with block_data := dset bm.block_data key filled }
    | some _ => bm
  let block_data := (dget bm1.block_data key).getD []
  let idx := calculate_block_index c.local_x c.local_y c.local_z
  if 0 ≤ idx ∧ idx < (block_data.length : ℤ) then
    let written := dset bm1.block_data key (block_data.set idx.toNat block_state_id)
    (true, { bm1 with block_data := written, updated_blocks := bm1.updated_blocks.insert (x, y, z) })
  else (false, bm1)

/-- `BlockManager.load_chunk`: generate and store all 24 sections. -/
def BlockManager.load_chunk (bm : BlockManager) (chunk_x chunk_z ground_y : ℤ)
    (flat_world use_terrain : Bool) : BlockManager :=
  (List.range 24).foldl (fun b (section_idx : ℕ) =>
    let sec := generate_initial_chunk_section b chunk_x chunk_z section_idx ground_y
      flat_world use_terrain
    { b with block_data := dset b.block_data (chunk_x, chunk_z, (section_idx : ℤ)) sec }) bm

/-- `BlockManager.is_chunk_loaded`: any of the 24 sections resident. -/
def BlockManager.is_chunk_loaded (bm : BlockManager) (chunk_x chunk_z : ℤ) : Bool :=
  (List.range 24).any (fun (section_y : ℕ) =>
    (dget bm.block_data (chunk_x, chunk_z, (section_y : ℤ))).isSome)

/-- `BlockManager.get_chunk_section`. -/
def BlockManager.get_chunk_section (bm : BlockManager) (chunk_x chunk_z section_y : ℤ) :
    Option (List ℕ) :=
  dget bm.block_data (chunk_x, chunk_z, section_y)

/-- `BlockManager.get_chunk_section_for_protocol`: non-air count, sorted
deduplicated palette (`sorted(set(block_data))`), and per-block palette
indices (`palette.index(block_id)`); `(0, [air], [0]*4096)` when the section
is not resident. -/
def BlockManager.get_chunk_section_for_protocol (bm : BlockManager)
    (chunk_x chunk_z section_y : ℤ) : ℕ × List ℕ × List ℕ :=
  match bm.get_chunk_section chunk_x chunk_z section_y with
  | none => (0, [BLOCK_AIR], List.replicate 4096 0)
  | some block_data =>
    let block_count := block_data.countP (fun b => b != BLOCK_AIR)
    let palette := block_data.toFinset.sort (· ≤ ·)
    let palette_indices := block_data.map (fun b => palette.indexOf b)
    (block_count, palette, palette_indices)

/-- `BlockManager.clear_updated_blocks`. -/
def BlockManager.clear_updated_blocks (bm : BlockManager) : BlockManager :=
  { bm with updated_blocks := [] }

/-- `BlockManager.get_updated_blocks` (a copy of the set). -/
def BlockManager.get_updated_blocks (bm : BlockManager) : List (ℤ × ℤ × ℤ) :=
  bm.updated_blocks

/-! ### Section-length invariant (C9) and totality of `get_block` (C10) -/

/-- Every resident section holds exactly 4096 entries. -/
def sections_wf (bm : BlockManager) : Prop :=
  ∀ k sec, dget bm.block_data k = some sec → sec.length = 4096

/-- A fresh block manager (`BlockManager()` without a terrain generator). -/
def empty_block_manager : BlockManager :=
  ⟨[], [], none⟩

/-! ## Chunk section serialization (`PacketBuilder.build_chunk_data`, section loop)

The per-section record of the Chunk Data packet: an `int16` non-air count
(`struct.pack('>h')`, which raises outside the signed 16-bit range — hence
`Option`), the block paletted container (single-valued when the palette has
one entry, indirect otherwise), and the single-valued biome container. -/

/-- `ProtocolWriter.write_byte`: one byte `value & 0xFF` after a range check
on `[-128, 127]`. -/
def write_byte_bytes (value : ℤ) : Option (List ℕ) :=
  if -128 ≤ value ∧ value ≤ 127 then some [(value % 256).toNat] else none

/-- `ProtocolWriter.write_short` (`struct.pack('>h', value)`): two big-endian
bytes of the two's-complement residue, after a range check. -/
def write_short_bytes (value : ℤ) : Option (List ℕ) :=
  if -32768 ≤ value ∧ value ≤ 32767 then
    some [((value % 65536) / 256).toNat, ((value % 65536) % 256).toNat]
  else none

/-- `ProtocolWriter.write_long` (`struct.pack('>q', value)`): eight
big-endian bytes of the two's-complement residue, after a range check on the
signed 64-bit range. -/
def write_long_bytes (value : ℤ) : Option (List ℕ) :=
  if -(2 ^ 63) ≤ value ∧ value ≤ 2 ^ 63 - 1 then
    some ((List.range 8).map (fun i =>
      ((value % 18446744073709551616) / (256 ^ (7 - i)) % 256).toNat))
  else none

/-- Sequential `write_varint` of a list of ids (the palette loop). -/
def write_varint_seq : List ℕ → Option (List ℕ)
  | [] => some []
  | id :: rest => do
    let b ← write_varint 5 (id : ℤ)
    let r ← write_varint_seq rest
    pure (b ++ r)

/-- `PacketBuilder._write_paletted_container_indirect`: bits-per-entry byte,
varint palette length, palette varints, then the bit-packed long array
(entries placed first-at-LSB, `floor(64/bpe)` of them per long, never split
across longs; each long passes through `write_long`, whose signed range
check can fail when bit 63 gets set). -/
def write_paletted_container_indirect (bits_per_entry : ℕ) (palette : List ℕ)
    (data_array : List ℕ) : Option (List ℕ) := do
  let b0 ← write_byte_bytes (bits_per_entry : ℤ)
  let plen ← write_varint 5 (palette.length : ℤ)
  let pal ← write_varint_seq palette
  let entries_per_long := 64 / bits_per_entry
  let num_longs := (data_array.length + entries_per_long - 1) / entries_per_long
  let longs ← (List.range num_longs).foldlM (fun acc long_idx => do
      let long_value := (List.range entries_per_long).foldl (fun lv entry_idx =>
        let data_idx := long_idx * entries_per_long + entry_idx
        if data_idx < data_array.length then
          lv ||| ((data_array.getD data_idx 0 &&& ((1 <<< bits_per_entry) - 1)) <<<
            (entry_idx * bits_per_entry))
        else lv) 0
      let lb ← write_long_bytes (long_value : ℤ)
      pure (acc ++ lb)) ([] : List ℕ)
  pure (b0 ++ plen ++ pal ++ longs)

/-- One iteration of the 24-section loop of `PacketBuilder.build_chunk_data`:
`int16` block count from `get_chunk_section_for_protocol`, the block
container (single-valued for a one-entry palette, else indirect with
`bits_per_entry = min(8, max(4, (len(palette)-1).bit_length()))`), and the
single-valued plains biome container. -/
def build_section_bytes (bm : BlockManager) (chunk_x chunk_z section_idx : ℤ) :
    Option (List ℕ) :=
  let r := bm.get_chunk_section_for_protocol chunk_x chunk_z section_idx
  let block_count := r.1
  let palette := r.2.1
  let palette_indices := r.2.2
  do
    let count_bytes ← write_short_bytes (block_count : ℤ)
    let container ←
      (if palette.length = 1 then do
        let b0 ← write_byte_bytes 0
        let pv ← write_varint 5 ((palette.getD 0 0 : ℕ) : ℤ)
        pure (b0 ++ pv)
      else
        let bpe0 := max 4 (Nat.size (palette.length - 1))
        let bits_per_entry := if bpe0 > 8 then 8 else bpe0
        write_paletted_container_indirect bits_per_entry palette palette_indices)
    let biome0 ← write_byte_bytes 0
    let biome_id ← write_varint 5 0
    pure (count_bytes ++ container ++ biome0 ++ biome_id)

/-- Flat-generated section 8 (world y 64..79; grass layer at its bottom). -/
def flat_section_8 : List ℕ :=
  generate_initial_chunk_section empty_block_manager 0 0 8 64 true false

/-- A block manager holding just `flat_section_8` at key `(0, 0, 8)`. -/
def protocol_sample_bm : BlockManager :=
  ⟨[((0, 0, 8), flat_section_8)], [], none⟩

/-! ## World state and item-entity physics (`packet_debug_server.py`)

`World` owns the block manager, the flat `entity_id → ItemEntity` table and
the per-entity collision cache.  `update_item_entities` is the 20 Hz physics
tick; wall-clock bookkeeping (`spawn_time`, `last_update_time`) is omitted —
it only feeds logging/pickup timing, not this tick's state. -/

/-- Physics-relevant state of an `ItemEntity`. -/
structure ItemEntity where
  x : ℚ
  y : ℚ
  z : ℚ
  velocity_x : ℚ
  velocity_y : ℚ
  velocity_z : ℚ
  item_id : ℕ
  count : ℕ
deriving DecidableEq

/-- One entry of `World.entity_collision_cache`. -/
structure CollisionCache where
  blocks_checked : List (ℤ × ℤ × ℤ)
  result : Bool
  position : ℚ × ℚ × ℚ
  velocity : ℚ × ℚ × ℚ
  gravity_disabled : Bool
deriving DecidableEq

/-- State of `World.__init__` (players and threads omitted; the tick below
only reads and writes these four components). -/
structure World where
  block_manager : BlockManager
  use_terrain_generation : Bool
  item_entities : List (ℕ × ItemEntity)
  entity_collision_cache : List (ℕ × CollisionCache)

/-- `update_item_entities`: `GRAVITY = -0.04` blocks per tick squared. -/
def GRAVITY : ℚ := -0.04

/-- `update_item_entities`: `DRAG = 0.98` per tick. -/
def DRAG : ℚ := 0.98

/-- `World.load_chunk_blocks`: delegate to the block manager with
`flat_world = not use_terrain, use_terrain = use_terrain`, the flag
defaulting to the world's `use_terrain_generation`. -/
def World.load_chunk_blocks (w : World) (chunk_x chunk_z ground_y : ℤ) : World :=
  let bm := w.block_manager.load_chunk chunk_x chunk_z ground_y
    (!w.use_terrain_generation) w.use_terrain_generation
  { w with block_manager := bm }

/-- `World.set_block`: delegate to `BlockManager.set_block`. -/
def World.set_block (w : World) (x y z : ℤ) (block_id : ℕ) : World :=
  { w with block_manager := (w.block_manager.set_block x y z block_id).2 }

/-- `World.get_block_at`: delegate to `BlockManager.get_block`. -/
def World.get_block_at (w : World) (x y z : ℤ) : ℕ :=
  w.block_manager.get_block x y z

/-- `World.is_block_solid`: delegate to `BlockManager.is_block_solid`. -/
def World.is_block_solid (w : World) (x y z : ℤ) : Bool :=
  w.block_manager.is_block_solid x y z

/-- One axis of the slab test inside `line_segment_intersects_aabb`
(`check_line_intersects_solid_block`): an axis with near-zero direction
rejects when the start lies outside the slab, otherwise the `[t1, t2]`
interval (swapped into order) narrows `[t_min, t_max]`, rejecting when it
empties.  `none` is an early `return False`. -/
def slab_update (start_i dir_i bmin_i bmax_i : ℚ) : Option (ℚ × ℚ) → Option (ℚ × ℚ)
  | none => none
  | some (t_min, t_max) =>
    if |dir_i| < 1e-9 then
      (if start_i < bmin_i ∨ start_i ≥ bmax_i then none else some (t_min, t_max))
    else
      let inv_dir := 1 / dir_i
      let t1 := (bmin_i - start_i) * inv_dir
      let t2 := (bmax_i - start_i) * inv_dir
      let t1' := if t1 > t2 then t2 else t1
      let t2' := if t1 > t2 then t1 else t2
      let t_min' := max t_min t1'
      let t_max' := min t_max t2'
      if t_min' > t_max' then none else some (t_min', t_max')

/-- `line_segment_intersects_aabb` (local helper of
`check_line_intersects_solid_block`): a zero-length segment degenerates to a
point-in-box test; otherwise the slab method with `t` clipped to `[0, 1]`. -/
def line_segment_intersects_aabb (line_start line_end bmin bmax : ℚ × ℚ × ℚ) : Bool :=
  let dir_x := line_end.1 - line_start.1
  let dir_y := line_end.2.1 - line_start.2.1
  let dir_z := line_end.2.2 - line_start.2.2
  if |dir_x| < 1e-9 ∧ |dir_y| < 1e-9 ∧ |dir_z| < 1e-9 then
    decide (bmin.1 ≤ line_start.1 ∧ line_start.1 < bmax.1 ∧
      bmin.2.1 ≤ line_start.2.1 ∧ line_start.2.1 < bmax.2.1 ∧
      bmin.2.2 ≤ line_start.2.2 ∧ line_start.2.2 < bmax.2.2)
  else
    (slab_update line_start.2.2 dir_z bmin.2.2 bmax.2.2
      (slab_update line_start.2.1 dir_y bmin.2.1 bmax.2.1
        (slab_update line_start.1 dir_x bmin.1 bmax.1 (some (0, 1))))).isSome

/-- Mutable state of the 3D DDA walk in `check_line_intersects_solid_block`;
`none` boundaries model `float('inf')`, and `blocks_checked` collects the
positions appended to `debug_info['blocks_checked']`. -/
structure DdaState where
  current_x : ℤ
  current_y : ℤ
  current_z : ℤ
  next_x_boundary : Option ℚ
  next_y_boundary : Option ℚ
  next_z_boundary : Option ℚ
  blocks_checked : List (ℤ × ℤ × ℤ)

/-- Comparison of two possibly-infinite boundary distances (IEEE semantics:
nothing is below `inf`, and `inf < inf` is false). -/
def optLt : Option ℚ → Option ℚ → Bool
  | some a, some b => a < b
  | some _, none => true
  | none, _ => false

/-- Addition with `inf` absorbing. -/
def optAdd : Option ℚ → Option ℚ → Option ℚ
  | some a, some b => some (a + b)
  | _, _ => none

/-- The `while steps < max_steps` walk of `check_line_intersects_solid_block`:
check the current block (appending it to the debug list), run the slab test
when it is solid and return on a true intersection, otherwise step along the
axis with the nearest boundary and stop once the walk passes the end block
on any axis. -/
def check_line_loop (solid : ℤ → ℤ → ℤ → Bool) (line_start line_end : ℚ × ℚ × ℚ)
    (step_x step_y step_z : ℤ) (delta_x delta_y delta_z : Option ℚ)
    (end_x end_y end_z : ℤ) : ℕ → DdaState → Bool × List (ℤ × ℤ × ℤ)
  | 0, st => (false, st.blocks_checked)
  | fuel + 1, st =>
    let pos := (st.current_x, st.current_y, st.current_z)
    let is_solid := solid st.current_x st.current_y st.current_z
    let blocks := st.blocks_checked ++ [pos]
    let hit := is_solid && line_segment_intersects_aabb line_start line_end
      ((st.current_x : ℚ), (st.current_y : ℚ), (st.current_z : ℚ))
      ((st.current_x : ℚ) + 1, (st.current_y : ℚ) + 1, (st.current_z : ℚ) + 1)
    if hit then (true, blocks)
    else
      let st' :=
        if optLt st.next_x_boundary st.next_y_boundary &&
            optLt st.next_x_boundary st.next_z_boundary then
          { st with current_x := st.current_x + step_x
                    next_x_boundary := optAdd st.next_x_boundary delta_x
                    blocks_checked := blocks }
        else if optLt st.next_y_boundary st.next_z_boundary then
          { st with current_y := st.current_y + step_y
                    next_y_boundary := optAdd st.next_y_boundary delta_y
                    blocks_checked := blocks }
        else
          { st with current_z := st.current_z + step_z
                    next_z_boundary := optAdd st.next_z_boundary delta_z
                    blocks_checked := blocks }
      if (step_x > 0 ∧ st'.current_x > end_x) ∨ (step_x < 0 ∧ st'.current_x < end_x) ∨
          (step_y > 0 ∧ st'.current_y > end_y) ∨ (step_y < 0 ∧ st'.current_y < end_y) ∨
          (step_z > 0 ∧ st'.current_z > end_z) ∨ (step_z < 0 ∧ st'.current_z < end_z) then
        (false, st'.blocks_checked)
      else
        check_line_loop solid line_start line_end step_x step_y step_z
          delta_x delta_y delta_z end_x end_y end_z fuel st'

/-- `World.check_line_intersects_solid_block` (with `return_debug=True`):
returns the hit flag and the visited block positions.  The unused
bounding-range entries of `debug_info` are not modelled. -/
def World.check_line_intersects_solid_block (w : World) (line_start line_end : ℚ × ℚ × ℚ) :
    Bool × List (ℤ × ℤ × ℤ) :=
  let old_x := line_start.1
  let old_y := line_start.2.1
  let old_z := line_start.2.2
  let next_x := line_end.1
  let next_y := line_end.2.1
  let next_z := line_end.2.2
  let dx := next_x - old_x
  let dy := next_y - old_y
  let dz := next_z - old_z
  let step_x : ℤ := if dx ≥ 0 then 1 else -1
  let step_y : ℤ := if dy ≥ 0 then 1 else -1
  let step_z : ℤ := if dz ≥ 0 then 1 else -1
  let current_x := ⌊old_x⌋
  let current_y := ⌊old_y⌋
  let current_z := ⌊old_z⌋
  let end_x := ⌊next_x⌋
  let end_y := ⌊next_y⌋
  let end_z := ⌊next_z⌋
  let delta_x : Option ℚ := if dx ≠ 0 then some |1 / dx| else none
  let next_x_boundary : Option ℚ :=
    if dx ≠ 0 then some (((current_x : ℚ) + (if step_x > 0 then 1 else 0) - old_x) / dx)
    else none
  let delta_y : Option ℚ := if dy ≠ 0 then some |1 / dy| else none
  let next_y_boundary : Option ℚ :=
    if dy ≠ 0 then some (((current_y : ℚ) + (if step_y > 0 then 1 else 0) - old_y) / dy)
    else none
  let delta_z : Option ℚ := if dz ≠ 0 then some |1 / dz| else none
  let next_z_boundary : Option ℚ :=
    if dz ≠ 0 then some (((current_z : ℚ) + (if step_z > 0 then 1 else 0) - old_z) / dz)
    else none
  let max_steps := (end_x - current_x).natAbs + (end_y - current_y).natAbs +
    (end_z - current_z).natAbs + 1
  check_line_loop (fun a b c => w.is_block_solid a b c) line_start line_end
    step_x step_y step_z delta_x delta_y delta_z end_x end_y end_z max_steps
    ⟨current_x, current_y, current_z, next_x_boundary, next_y_boundary, next_z_boundary, []⟩

/-- Horizontal x-clamp of `update_item_entities`: if crossing into a new
block column whose block at foot or head level is solid, zero the
x-velocity, then snap — but the direction test `velocity_x > 0` reads the
just-zeroed velocity, so the negative-direction snap `entity_x_floor + 0.01`
is always taken. -/
def clamp_axis_x (w : World) (e : ItemEntity)
    (entity_x_floor entity_y_floor entity_z_floor : ℤ) : ItemEntity :=
  if e.velocity_x ≠ 0 then
    let next_x := e.x + e.velocity_x * 1
    let next_x_floor := pyInt next_x
    if next_x_floor ≠ entity_x_floor then
      if w.is_block_solid next_x_floor entity_y_floor entity_z_floor ||
          w.is_block_solid next_x_floor (entity_y_floor + 1) entity_z_floor then
        let e1 := { e with velocity_x := 0 }
        if e1.velocity_x > 0 then { e1 with x := (entity_x_floor : ℚ) + 1 - 0.01 }
        else { e1 with x := (entity_x_floor : ℚ) + 0.01 }
      else e
    else e
  else e

/-- Horizontal z-clamp of `update_item_entities`, mirroring `clamp_axis_x`
(it uses the column floors computed before the x-clamp, as the code does). -/
def clamp_axis_z (w : World) (e : ItemEntity)
    (entity_x_floor entity_y_floor entity_z_floor : ℤ) : ItemEntity :=
  if e.velocity_z ≠ 0 then
    let next_z := e.z + e.velocity_z * 1
    let next_z_floor := pyInt next_z
    if next_z_floor ≠ entity_z_floor then
      if w.is_block_solid entity_x_floor entity_y_floor next_z_floor ||
          w.is_block_solid entity_x_floor (entity_y_floor + 1) next_z_floor then
        let e1 := { e with velocity_z := 0 }
        if e1.velocity_z > 0 then { e1 with z := (entity_z_floor : ℚ) + 1 - 0.01 }
        else { e1 with z := (entity_z_floor : ℚ) + 0.01 }
      else e
    else e
  else e

/-- Recheck path of the tick: run the DDA; on a hit zero the velocity, keep
the position and write a fresh cache entry (`debug_info` is a non-empty dict,
hence always truthy) with the visited blocks, `result=True`, the kept
position, zero velocity and `gravity_disabled=True`; on a miss move to the
predicted position and drop the entity's cache entry. -/
def resolve_collision (w : World) (entity_id : ℕ) (e : ItemEntity)
    (old_pos next_pos : ℚ × ℚ × ℚ) : World :=
  let r := w.check_line_intersects_solid_block old_pos next_pos
  if r.1 then
    let e4 := { e with velocity_x := 0, velocity_y := 0, velocity_z := 0 }
    let fresh := dset w.entity_collision_cache entity_id ⟨r.2, true, old_pos, (0, 0, 0), true⟩
    let w3 := { w with entity_collision_cache := fresh }
    { w3 with item_entities := dset w3.item_entities entity_id e4 }
  else
    let moved := { e with x := next_pos.1, y := next_pos.2.1, z := next_pos.2.2 }
    { w with item_entities := dset w.item_entities entity_id moved,
             entity_collision_cache := dpop w.entity_collision_cache entity_id }

/-- Cache-hit path of the tick (`needs_recheck` false): reuse the cached
result; a cached hit just zeroes the velocity (no new cache entry is
written), a cached miss moves the entity and drops its cache entry. -/
def finish_cache_hit (w : World) (entity_id : ℕ) (e : ItemEntity)
    (next_pos : ℚ × ℚ × ℚ) (result : Bool) : World :=
  if result then
    let stopped := { e with velocity_x := 0, velocity_y := 0, velocity_z := 0 }
    { w with item_entities := dset w.item_entities entity_id stopped }
  else
    let moved := { e with x := next_pos.1, y := next_pos.2.1, z := next_pos.2.2 }
    { w with item_entities := dset w.item_entities entity_id moved,
             entity_collision_cache := dpop w.entity_collision_cache entity_id }

/-- One entity's step of `World.update_item_entities`: suppress gravity when
the cached `gravity_disabled` is set, apply gravity and drag, lazily load
the entity's chunk, apply both horizontal clamps, then either reuse a
matching cache entry (position and velocity within 1e-6 and none of its
`blocks_checked` mutated) or recheck with the DDA; a mutation of a checked
block also clears the stale `gravity_disabled` flag in place. -/
def update_one_entity (w : World) (entity_id : ℕ) (e0 : ItemEntity) : World :=
  let cache0 := dget w.entity_collision_cache entity_id
  let gravity_disabled :=
    match cache0 with
    | some c => c.gravity_disabled
    | none => false
  let vy := if !gravity_disabled then e0.velocity_y + GRAVITY else e0.velocity_y
  let e1 := { e0 with
    velocity_x := e0.velocity_x * DRAG
    velocity_y := vy * DRAG
    velocity_z := e0.velocity_z * DRAG }
  let entity_x_floor := pyInt e1.x
  let entity_y_floor := pyInt e1.y
  let entity_z_floor := pyInt e1.z
  let chunk_x := entity_x_floor / 16
  let chunk_z := entity_z_floor / 16
  let w1 :=
    if !(w.block_manager.is_chunk_loaded chunk_x chunk_z) then
      w.load_chunk_blocks chunk_x chunk_z 64
    else w
  let e2 := clamp_axis_x w1 e1 entity_x_floor entity_y_floor entity_z_floor
  let e3 := clamp_axis_z w1 e2 entity_x_floor entity_y_floor entity_z_floor
  let old_pos : ℚ × ℚ × ℚ := (e3.x, e3.y, e3.z)
  let next_pos : ℚ × ℚ × ℚ :=
    (e3.x + e3.velocity_x * 1, e3.y + e3.velocity_y * 1, e3.z + e3.velocity_z * 1)
  match dget w1.entity_collision_cache entity_id with
  | none => resolve_collision w1 entity_id e3 old_pos next_pos
  | some c =>
    let position_changed := |c.position.1 - old_pos.1| > 1e-6 ∨
      |c.position.2.1 - old_pos.2.1| > 1e-6 ∨ |c.position.2.2 - old_pos.2.2| > 1e-6
    let velocity_changed := |c.velocity.1 - e3.velocity_x| > 1e-6 ∨
      |c.velocity.2.1 - e3.velocity_y| > 1e-6 ∨ |c.velocity.2.2 - e3.velocity_z| > 1e-6
    let blocks_updated :=
      if c.blocks_checked ≠ [] then
        c.blocks_checked.any (fun b => decide (b ∈ w1.block_manager.get_updated_blocks))
      else false
    let w2 :=
      if blocks_updated ∧ c.gravity_disabled then
        let cleared := dset w1.entity_collision_cache entity_id { c with gravity_disabled := false }
        { w1 with entity_collision_cache := cleared }
      else w1
    if ¬position_changed ∧ ¬velocity_changed ∧ ¬blocks_updated then
      finish_cache_hit w2 entity_id e3 next_pos c.result
    else resolve_collision w2 entity_id e3 old_pos next_pos

/-- `World.update_item_entities`: one physics tick over a snapshot of the
entity table, then `clear_updated_blocks`. -/
def World.update_item_entities (w : World) : World :=
  let w' := w.item_entities.foldl (fun wa p => update_one_entity wa p.1 p.2) w
  { w' with block_manager := w'.block_manager.clear_updated_blocks }

/-- Value of one cell of the terrain branch of
`generate_initial_chunk_section` (derived characterization, spelled from the
branch bodies). -/
def terrain_cell_value (tg : TerrainOracle) (chunk_x chunk_z section_y : ℤ) (x y z : ℕ) : ℕ :=
  let hm := tg.height_map chunk_x chunk_z
  let world_y := -64 + section_y * 16 + (y : ℤ)
  let surface_height := hm z x
  if world_y > surface_height then (if world_y < 64 then BLOCK_WATER else BLOCK_AIR)
  else if world_y = surface_height then get_surface_block tg hm x z surface_height chunk_x chunk_z
  else if world_y ≥ surface_height - 3 then BLOCK_DIRT
  else BLOCK_STONE

/-! ### Lazy materialization in `set_block` (C3) -/

/-- A terrain oracle whose height map is constant 200 (any fixed noise
outcome exhibits the point; slope unused below). -/
def terrain_const_oracle : TerrainOracle :=
  ⟨fun _ _ _ _ => 200, fun _ _ => 0⟩

/-- A world in terrain mode (`World(use_terrain_generation=True)`, as the
server constructs it) whose block manager holds no sections yet. -/
def terrain_world : World :=
  ⟨⟨[], [], some terrain_const_oracle⟩, true, [], []⟩

/-! ### Horizontal clamp direction (C6) -/

/-- A block manager holding one resident section, `(0, 0, 8)` (world y 64..79),
filled entirely with grass blocks. -/
def grass_slab_bm : BlockManager :=
  ⟨[((0, 0, 8), List.replicate 4096 BLOCK_GRASS_BLOCK)], [], none⟩

/-- A flat world with one item entity (id 7) at `(0.9, 64.5, 0.5)` moving in
the `+x` direction at `0.5` blocks per tick, straight into the solid column at
`x = 1`. -/
def wC6 : World := ⟨grass_slab_bm, false, [(7, ⟨9/10, 129/2, 1/2, 1/2, 0, 0, 99, 1⟩)], []⟩

/-- An item entity resting at `(0.5, 64.5, 0.5)` with zero velocity. -/
def frozen_entity : ItemEntity := ⟨1/2, 129/2, 1/2, 0, 0, 0, 99, 1⟩

/-- A collision cache for `frozen_entity`: frozen (`gravity_disabled`), its
checked set holding the block `(0, 64, 0)` the entity rests in. -/
def frozen_cache : CollisionCache := ⟨[(0, 64, 0)], true, (1/2, 129/2, 1/2), (0, 0, 0), true⟩

/-- `frozen_entity` frozen inside the all-grass slab (it sits at y 64.5,
inside solid blocks on every side). -/
def slab_frozen_world : World :=
  ⟨grass_slab_bm, false, [(5, frozen_entity)], [(5, frozen_cache)]⟩

/-- `slab_frozen_world` after `set_block(0, 64, 0, stone)`: the section with
index 0 rewritten and `(0, 64, 0)` recorded as updated. -/
def slab_frozen_world_mined : World :=
  ⟨⟨[((0, 0, 8), BLOCK_STONE :: List.replicate 4095 BLOCK_GRASS_BLOCK)], [(0, 64, 0)], none⟩,
   false, [(5, frozen_entity)], [(5, frozen_cache)]⟩

/-- A block manager with a single grass block at `(0, 64, 0)` (section
`(0, 0, 8)` is that block followed by air). -/
def single_block_bm : BlockManager :=
  ⟨[((0, 0, 8), BLOCK_GRASS_BLOCK :: List.replicate 4095 BLOCK_AIR)], [], none⟩

/-- `frozen_entity` frozen inside the lone grass block. -/
def perch_world : World :=
  ⟨single_block_bm, false, [(5, frozen_entity)], [(5, frozen_cache)]⟩

/-- `perch_world` after mining the lone block (`set_block(0, 64, 0, air)`). -/
def perch_world_mined : World :=
  ⟨⟨[((0, 0, 8), BLOCK_AIR :: List.replicate 4095 BLOCK_AIR)], [(0, 64, 0)], none⟩,
   false, [(5, frozen_entity)], [(5, frozen_cache)]⟩

/-! ### Sky-light arrays of the chunk packet (C5) -/

/-- Sky-light value of one block in `PacketBuilder.build_chunk_data`: 15 at or
above the column height (the heightmap entry at `z*16 + x` in terrain mode,
ground level 64 in flat mode), otherwise decreasing by one per block of depth,
clamped at 0.  `hm` abstracts the `heightmap_entries` lookup. -/
def sky_light_value (use_terrain : Bool) (hm : ℕ → ℤ) (world_y : ℤ) (z x : ℕ) : ℤ :=
  if use_terrain then
    let height_at_pos := hm (z * 16 + x)
    if world_y ≥ height_at_pos then 15
    else max 0 (15 - (height_at_pos - world_y))
  else
    if world_y ≥ 64 then 15
    else max 0 (15 - (64 - world_y))

/-- One sky-light array of `build_chunk_data` (2048 bytes for section
`section_idx`): the y/z/x loops write each light value into byte
`block_idx / 2`, assigning `(value << 4) & 0xF0` when `block_idx` is even and
or-ing `value & 0x0F` into the byte when it is odd (the two assignment
statements factored through the common `light_array[byte_idx] = ...`). -/
def sky_light_section (use_terrain : Bool) (hm : ℕ → ℤ) (section_idx : ℤ) : List ℕ :=
  let section_y_min := -64 + section_idx * 16
  (List.range 16).foldl (fun la (y : ℕ) =>
    let world_y := section_y_min + (y : ℤ)
    (List.range 16).foldl (fun la (z : ℕ) =>
      (List.range 16).foldl (fun la (x : ℕ) =>
        let block_idx := y * 256 + z * 16 + x
        let byte_idx := block_idx / 2
        let light_value := (sky_light_value use_terrain hm world_y z x).toNat
        la.set byte_idx
          (if block_idx % 2 = 0 then (light_value <<< 4) &&& 0xF0
           else la.getD byte_idx 0 ||| (light_value &&& 0x0F))) la) la)
    (List.replicate 2048 0)

/-- The claim's packing of one sky-light byte — low nibble first for even
block indices: byte `i` holds the value of block `2*i` in its LOW nibble and
the value of block `2*i + 1` in its high nibble. -/
def sky_light_byte_claim (use_terrain : Bool) (hm : ℕ → ℤ) (section_idx : ℤ) (i : ℕ) : ℕ :=
  ((sky_light_value use_terrain hm (-64 + section_idx * 16 + ((2 * i / 256 : ℕ) : ℤ))
      (2 * i % 256 / 16) (2 * i % 16)).toNat &&& 0x0F) |||
    (((sky_light_value use_terrain hm (-64 + section_idx * 16 + (((2 * i + 1) / 256 : ℕ) : ℤ))
      ((2 * i + 1) % 256 / 16) ((2 * i + 1) % 16)).toNat &&& 0x0F) <<< 4)

/-- Height-map lookup for the counterexample: column `(z=0, x=0)` has surface
height 200, every other column height 0. -/
def demo_hm : ℕ → ℤ := fun i => if i = 0 then 200 else 0

theorem pyInt_nonneg_eq_floor (q : ℚ) (h : 0 ≤ q) : pyInt q = ⌊q⌋ := by
  simp [pyInt, not_lt.mpr h]

theorem pyModQ_nonneg (a m : ℚ) (hm : 0 < m) : 0 ≤ pyModQ a m := by
  have h := Int.sub_one_lt_floor (a / m)
  have h' : (⌊a / m⌋ : ℚ) ≤ a / m := Int.floor_le (a / m)
  have : m * (⌊a / m⌋ : ℚ) ≤ m * (a / m) := by
    exact mul_le_mul_of_nonneg_left h' (le_of_lt hm)
  have hmdiv : m * (a / m) = a := by
    field_simp
  unfold pyModQ
  nlinarith

theorem pyModQ_lt (a m : ℚ) (hm : 0 < m) : pyModQ a m < m := by
  have h : a / m - 1 < (⌊a / m⌋ : ℚ) := Int.sub_one_lt_floor (a / m)
  have : m * (a / m - 1) < m * (⌊a / m⌋ : ℚ) := by
    exact mul_lt_mul_of_pos_left h hm
  have hmdiv : m * (a / m) = a := by
    field_simp
  unfold pyModQ
  nlinarith

/-! ### Round-trip of the varint codec, and divergence of the varlong writer -/

theorem varint_byte_facts : ∀ m : ℕ, m < 128 →
    m ||| 128 = m + 128 ∧ (m ||| 128) &&& 0x7F = m ∧ ¬((m ||| 128) &&& 0x80 = 0) ∧
    m &&& 0x7F = m ∧ m &&& 0x80 = 0 := by
  decide

theorem lor_shift_of_lt (a b s : ℕ) (h : a < 2 ^ s) : a ||| b <<< s = a + b * 2 ^ s := by
  apply Nat.eq_of_testBit_eq
  intro j
  rw [Nat.testBit_or]
  have hsum : a + b * 2 ^ s = 2 ^ s * b + a := by ring
  rw [hsum, Nat.testBit_mul_pow_two_add b h j, Nat.testBit_shiftLeft]
  by_cases hj : j < s
  · simp [hj, Nat.not_le.mpr hj]
  · have hs : s ≤ j := Nat.not_lt.mp hj
    have ha : a.testBit j = false :=
      Nat.testBit_lt_two_pow (lt_of_lt_of_le h (Nat.pow_le_pow_right (by norm_num) hs))
    simp [hj, hs, ha]

theorem write_varint_nat_shift (v : ℕ) (h : ¬ v / 128 = 0) :
    write_varint_nat v = (v % 128 ||| 0x80) :: write_varint_nat (v / 128) := by
  rw [write_varint_nat]
  simp [h]

theorem write_varint_nat_last (v : ℕ) (h : v / 128 = 0) :
    write_varint_nat v = [v % 128] := by
  rw [write_varint_nat]
  simp [h]

theorem read_varint_loop_write (v : ℕ) : ∀ s acc : ℕ, 7 ∣ s → s ≤ 28 → v < 2 ^ (35 - s) →
    acc < 2 ^ s → read_varint_loop (write_varint_nat v) s acc = some (acc + v * 2 ^ s) := by
  induction v using Nat.strong_induction_on with
  | _ v ih =>
    intro s acc hdvd hs hv hacc
    by_cases h0 : v / 128 = 0
    · have hv128 : v < 128 := by omega
      rw [write_varint_nat_last v h0, read_varint_loop]
      have hm : v % 128 = v := Nat.mod_eq_of_lt hv128
      rw [hm]
      obtain ⟨_, _, _, h7f, h80⟩ := varint_byte_facts v hv128
      simp only [h7f, h80, if_pos rfl]
      rw [lor_shift_of_lt acc v s hacc]
      simp
    · have hv128 : 128 ≤ v := by omega
      have hsne : s ≠ 28 := by
        intro hs28
        subst hs28
        simp at hv
        omega
      have hs21 : s ≤ 21 := by omega
      rw [write_varint_nat_shift v h0, read_varint_loop]
      obtain ⟨_, h7f, h80, _, _⟩ := varint_byte_facts (v % 128) (Nat.mod_lt _ (by norm_num))
      simp only [h7f, h80, if_neg h80]
      have hguard : ¬ 32 ≤ s + 7 := by omega
      simp only [if_neg hguard]
      have hres : acc ||| (v % 128) <<< s = acc + v % 128 * 2 ^ s :=
        lor_shift_of_lt acc (v % 128) s hacc
      rw [hres]
      have hreslt : acc + v % 128 * 2 ^ s < 2 ^ (s + 7) := by
        have h1 : acc < 2 ^ s := hacc
        have h2 : v % 128 * 2 ^ s ≤ 127 * 2 ^ s := by
          have := Nat.mod_lt v (show 0 < 128 by norm_num)
          exact Nat.mul_le_mul_right _ (by omega)
        have h3 : 2 ^ (s + 7) = 128 * 2 ^ s := by
          rw [pow_add]
          ring
        omega
      have hdvd7 : 7 ∣ s + 7 := by omega
      have hvr : v / 128 < 2 ^ (35 - (s + 7)) := by
        have h128 : (128 : ℕ) = 2 ^ 7 := by norm_num
        have : v / 128 < 2 ^ (35 - s) / 2 ^ 7 ∨ v / 128 * 2 ^ 7 < 2 ^ (35 - s) := by
          right
          have hle : v / 128 * 128 ≤ v := Nat.div_mul_le_self v 128
          omega
        have hpow : 2 ^ (35 - s) = 2 ^ (35 - (s + 7)) * 2 ^ 7 := by
          rw [← pow_add]
          congr 1
          omega
        rcases this with h | h
        · omega
        · rw [hpow] at h
          have := Nat.lt_of_mul_lt_mul_right h
          omega
      rw [ih (v / 128) (Nat.div_lt_self (by omega) (by norm_num)) (s + 7)
           (acc + v % 128 * 2 ^ s) hdvd7 (by omega) hvr hreslt]
      rw [if_neg not_false]
      congr 1
      have hv' : v = 128 * (v / 128) + v % 128 := by omega
      have h3 : 2 ^ (s + 7) = 2 ^ s * 128 := by
        rw [pow_add]
        ring
      rw [h3]
      conv_rhs => rw [hv']
      ring

theorem write_varint_step_of_nat : ∀ (fuel : ℕ) (v : ℕ) (acc : List ℕ), v < 128 ^ fuel →
    0 < fuel → write_varint_step fuel (v : ℤ) acc = some (acc ++ write_varint_nat v) := by
  intro fuel
  induction fuel with
  | zero =>
    intro v acc hv hpos
    omega
  | succ fuel ihf =>
    intro v acc hv hpos
    rw [write_varint_step]
    have hfd : Int.fdiv (v : ℤ) 128 = ((v / 128 : ℕ) : ℤ) := by
      rw [Int.fdiv_eq_ediv _ (by norm_num)]
      omega
    have hbyte : ((v : ℤ) % 128).toNat = v % 128 := by omega
    simp only [hfd, hbyte]
    by_cases h0 : v / 128 = 0
    · simp only [h0, Int.ofNat_zero, if_pos rfl]
      rw [write_varint_nat_last v h0]
      simp
    · have hne : ¬ ((v / 128 : ℕ) : ℤ) = 0 := by
        exact_mod_cast h0
      have hfuel : 0 < fuel := by
        rcases Nat.eq_zero_or_pos fuel with hf | hf
        · exfalso
          rw [hf, pow_one] at hv
          omega
        · exact hf
      simp only [if_neg hne]
      rw [ihf (v / 128) (acc ++ [v % 128 ||| 0x80])
           (by
             have : v / 128 < 128 ^ fuel ∨ v / 128 * 128 < 128 ^ (fuel + 1) := by
               right
               have hle : v / 128 * 128 ≤ v := Nat.div_mul_le_self v 128
               omega
             rcases this with h | h
             · exact h
             · rw [pow_succ] at h
               exact Nat.lt_of_mul_lt_mul_right h) hfuel]
      rw [write_varint_nat_shift v h0]
      simp

theorem write_varlong_step_neg : ∀ (fuel : ℕ) (x : ℤ) (acc : List ℕ), x < 0 →
    write_varlong_step fuel x acc = none := by
  intro fuel
  induction fuel with
  | zero =>
    intro x acc hx
    rfl
  | succ fuel ihf =>
    intro x acc hx
    rw [write_varlong_step]
    have hfd : Int.fdiv x 128 = x / 128 := Int.fdiv_eq_ediv _ (by norm_num)
    have hneg : x / 128 < 0 := Int.ediv_neg' hx (by norm_num)
    have hcond : ¬ (Int.fdiv x 128 = 0 ∧ (x % 128).toNat &&& 0x80 = 0) := by
      rw [hfd]
      intro ⟨h1, _⟩
      omega
    simp only [if_neg hcond]
    exact ihf _ _ (by rw [hfd]; exact hneg)

/-- C1.  Round-trip of the variable-length integer codecs.  The varint half
holds on the full signed 32-bit range: decoding `write_varint`'s bytes with
`read_varint` returns the argument.  The varlong half is a code bug:
`write_varlong` has no sign conversion, and for every negative argument its
loop never terminates (`value >>= 7` converges to `-1`, never `0`), so no
fuel suffices and no byte string is ever produced, contradicting both the
claim and the docstring's promise of at most 10 bytes. -/
theorem varint_roundtrip_and_varlong_stuck :
    (∀ x : ℤ, -(2 ^ 31) ≤ x → x < 2 ^ 31 →
      ∃ bs, write_varint 5 x = some bs ∧ read_varint bs = some x) ∧
    (∀ x : ℤ, x < 0 → ∀ fuel : ℕ, write_varlong fuel x = none) := by
  constructor
  · intro x hlo hhi
    set u : ℤ := if x < 0 then x + 0x100000000 else x with hu
    have hu0 : 0 ≤ u := by
      rw [hu]
      split <;> omega
    have hu32 : u < 2 ^ 32 := by
      rw [hu]
      split <;> omega
    have hcast : (u.toNat : ℤ) = u := Int.toNat_of_nonneg hu0
    refine ⟨write_varint_nat u.toNat, ?_, ?_⟩
    · rw [write_varint, ← hu]
      rw [show write_varint_step 5 u [] = write_varint_step 5 ((u.toNat : ℤ)) [] by rw [hcast]]
      rw [write_varint_step_of_nat 5 u.toNat [] (by omega) (by norm_num)]
      simp
    · rw [read_varint]
      rw [read_varint_loop_write u.toNat 0 0 ⟨0, rfl⟩ (by norm_num) (by omega) (by norm_num)]
      have hval : 0 + u.toNat * 2 ^ 0 = u.toNat := by norm_num
      rw [hval]
      have h08 : (0x80000000 : ℕ) = 2 ^ 31 := by norm_num
      have hand : u.toNat &&& 0x80000000 = (u.toNat.testBit 31).toNat * 2 ^ 31 := by
        rw [h08]
        exact Nat.and_two_pow u.toNat 31
      have htb : u.toNat.testBit 31 = decide (u.toNat / 2 ^ 31 % 2 = 1) :=
        Nat.testBit_to_div_mod
      have hp31 : (2 : ℕ) ^ 31 = 2147483648 := by norm_num
      by_cases hx : x < 0
      · have huval : u = x + 0x100000000 := by
          rw [hu, if_pos hx]
        have hge : 2147483648 ≤ u.toNat := by omega
        have hlt : u.toNat < 4294967296 := by omega
        have hdiv : u.toNat / 2 ^ 31 = 1 := by
          rw [hp31]
          omega
        have hbit : u.toNat.testBit 31 = true := by
          rw [htb, hdiv]
          decide
        show some (if u.toNat &&& 0x80000000 ≠ 0 then ((u.toNat : ℤ) - 0x100000000)
          else (u.toNat : ℤ)) = some x
        rw [hand, hbit]
        rw [if_pos (by simp)]
        congr 1
        omega
      · have huval : u = x := by
          rw [hu, if_neg hx]
        have hlt : u.toNat < 2147483648 := by omega
        have hdiv : u.toNat / 2 ^ 31 = 0 := by
          rw [hp31]
          omega
        have hbit : u.toNat.testBit 31 = false := by
          rw [htb, hdiv]
          decide
        show some (if u.toNat &&& 0x80000000 ≠ 0 then ((u.toNat : ℤ) - 0x100000000)
          else (u.toNat : ℤ)) = some x
        rw [hand, hbit]
        rw [if_neg (by simp)]
        congr 1
        omega
  · intro x hx fuel
    exact write_varlong_step_neg fuel x [] hx

theorem varint_roundtrip_witness :
    (∃ bs, write_varint 5 (-5) = some bs ∧ read_varint bs = some (-5)) ∧
    write_varlong 3 (-1) = none :=
  ⟨varint_roundtrip_and_varlong_stuck.1 (-5) (by norm_num) (by norm_num),
   varint_roundtrip_and_varlong_stuck.2 (-1) (by norm_num) 3⟩

/-! ### Angle quantization (C8): the writer truncates, it does not round -/

/-- C8, counterexample.  At one degree, `write_angle` emits byte 0 (the code
truncates `256/360 ≈ 0.71` with `int(...)`), while the claimed encoding
`round((degrees mod 360)/360*256) mod 256` is byte 1. -/
theorem write_angle_one_ne_claim :
    write_angle 1 = 0 ∧ angle_byte_claim 1 = 1 := by
  constructor
  · show pyInt (pyModQ 1 360 / 360 * 256) % 256 = 0
    norm_num [pyModQ, pyInt]
  · show round (pyModQ 1 360 / 360 * 256) % 256 = 1
    norm_num [pyModQ, round_eq]

/-- C8, amended.  The wire encoding of an angle is the single unsigned byte
`floor((degrees mod 360) / 360 * 256)` — the fraction of a full turn
quantized to 1/256 with truncation (floor), not rounding to nearest; the
value already lies in `[0, 256)`, so the final `& 0xFF` mask is the
identity. -/
theorem write_angle_is_floor (angle : ℚ) :
    write_angle angle = ⌊pyModQ angle 360 / 360 * 256⌋ ∧
    0 ≤ write_angle angle ∧ write_angle angle < 256 := by
  have hm0 : 0 ≤ pyModQ angle 360 := pyModQ_nonneg angle 360 (by norm_num)
  have hm1 : pyModQ angle 360 < 360 := pyModQ_lt angle 360 (by norm_num)
  have ht0 : 0 ≤ pyModQ angle 360 / 360 * 256 := by positivity
  have ht1 : pyModQ angle 360 / 360 * 256 < 256 := by
    have : pyModQ angle 360 / 360 < 1 := by
      rw [div_lt_one (by norm_num)]
      exact hm1
    nlinarith
  have hfl0 : 0 ≤ ⌊pyModQ angle 360 / 360 * 256⌋ := Int.floor_nonneg.mpr ht0
  have hfl1 : ⌊pyModQ angle 360 / 360 * 256⌋ < 256 := by
    rw [Int.floor_lt]
    exact_mod_cast ht1
  have hpy : pyInt (pyModQ angle 360 / 360 * 256) = ⌊pyModQ angle 360 / 360 * 256⌋ :=
    pyInt_nonneg_eq_floor _ ht0
  unfold write_angle
  rw [hpy, Int.emod_eq_of_lt hfl0 hfl1]
  exact ⟨rfl, hfl0, hfl1⟩

theorem pyInt_eq_ratTrunc (q : ℚ) : pyInt q = ratTrunc q := by
  have hden : 0 < (q.den : ℤ) := by
    exact_mod_cast q.pos
  by_cases h : q < 0
  · have hnum : q.num < 0 := Rat.num_neg.mpr h
    rw [pyInt, if_pos h, ratTrunc]
    have hceil : ⌈q⌉ = -⌊-q⌋ := rfl
    rw [hceil, Rat.floor_def]
    have hq : (-q).num = -q.num := Rat.neg_num q
    have hqd : (-q).den = q.den := Rat.neg_den q
    rw [hq, hqd]
    have htd : q.num.tdiv (q.den : ℤ) = -((-q.num).tdiv (q.den : ℤ)) := by
      rw [Int.neg_tdiv]
      ring
    rw [htd]
    congr 1
    exact (Int.tdiv_eq_ediv (by omega) (by omega)).symm
  · have hq0 : 0 ≤ q := not_lt.mp h
    have hnum : 0 ≤ q.num := Rat.num_nonneg.mpr hq0
    rw [pyInt, if_neg h, ratTrunc, Rat.floor_def]
    exact (Int.tdiv_eq_ediv hnum (by omega)).symm

/-- C7, counterexample.  With the default parameters, base noise 0.1 and
mountain noise 0 (below the threshold), the code truncates
`64 + 0.1*16 = 65.6` to 65, while the claim's
`clamp(base_height + round(n_base * A), 0, 255)` gives `64 + round(1.6) = 66`. -/
theorem column_height_counterexample :
    column_height terrain_default_params (1/10) 0 = 65 ∧
    column_height_claim terrain_default_params (1/10) 0 = 66 ∧
    column_height terrain_default_params (1/10) 0 ≠
      column_height_claim terrain_default_params (1/10) 0 := by
  refine ⟨?_, ?_, ?_⟩
  · show max 0 (min 255 (pyInt _)) = 65
    norm_num [effective_amplitude, terrain_default_params, pyInt]
  · show max 0 (min 255 _) = 66
    norm_num [terrain_default_params, round_eq]
  · intro h
    rw [show column_height terrain_default_params (1/10) 0 = 65 by
          show max 0 (min 255 (pyInt _)) = 65
          norm_num [effective_amplitude, terrain_default_params, pyInt],
        show column_height_claim terrain_default_params (1/10) 0 = 66 by
          show max 0 (min 255 _) = 66
          norm_num [terrain_default_params, round_eq]] at h
    omega

/-- C7, amended.  For every parameter set and every pair of noise samples,
the returned surface height is
`clamp(trunc(base_height + n_base * A), 0, 255)` where truncation is toward
zero and `A = base_amplitude + trunc(f * mountain_amplitude)` (an integer,
`f = (n_mtn - threshold)/(1 - threshold)`) when the mountain noise exceeds
the threshold, else `A = base_amplitude`. -/
theorem column_height_eq_amended (p : TerrainParams) (noise_value mountain_noise : ℚ) :
    column_height p noise_value mountain_noise =
      column_height_amended p noise_value mountain_noise := by
  unfold column_height column_height_amended effective_amplitude
  by_cases h : mountain_noise > p.mountain_threshold
  · rw [if_pos h, if_pos h, pyInt_eq_ratTrunc, pyInt_eq_ratTrunc,
      mul_comm ((mountain_noise - p.mountain_threshold) / (1 - p.mountain_threshold))
        ((p.mountain_amplitude : ℚ))]
    omega
  · rw [if_neg h, if_neg h, pyInt_eq_ratTrunc]
    omega

theorem dget_dset_self {κ β : Type} [DecidableEq κ] (m : List (κ × β)) (k : κ) (v : β) :
    dget (dset m k v) k = some v := by
  induction m with
  | nil => simp [dget, dset]
  | cons p rest ih =>
    obtain ⟨k', v'⟩ := p
    by_cases h : k' = k
    · simp [dget, dset, h]
    · simp [dget, dset, h, ih]

theorem dget_dset_ne {κ β : Type} [DecidableEq κ] (m : List (κ × β)) (k k' : κ) (v : β)
    (h : k ≠ k') : dget (dset m k v) k' = dget m k' := by
  induction m with
  | nil => simp [dget, dset, h]
  | cons p rest ih =>
    obtain ⟨k0, v0⟩ := p
    by_cases h0 : k0 = k
    · subst h0
      simp [dget, dset, h]
    · simp only [dset, if_neg h0]
      by_cases h1 : k0 = k'
      · simp [dget, h1]
      · simp [dget, h1, ih]

theorem dget_eq_none_of_not_mem_keys {κ β : Type} [DecidableEq κ] (m : List (κ × β)) (k : κ)
    (h : k ∉ m.map Prod.fst) : dget m k = none := by
  induction m with
  | nil => rfl
  | cons p rest ih =>
    obtain ⟨k0, v0⟩ := p
    simp only [List.map_cons, List.mem_cons] at h
    push_neg at h
    rw [dget, if_neg (fun he => h.1 he.symm)]
    exact ih h.2

theorem dget_dpop_self {κ β : Type} [DecidableEq κ] (m : List (κ × β)) (k : κ)
    (hnd : (m.map Prod.fst).Nodup) : dget (dpop m k) k = none := by
  induction m with
  | nil => simp [dget, dpop]
  | cons p rest ih =>
    obtain ⟨k0, v0⟩ := p
    simp only [List.map_cons, List.nodup_cons] at hnd
    by_cases h0 : k0 = k
    · subst h0
      rw [dpop, if_pos rfl]
      exact dget_eq_none_of_not_mem_keys rest k0 hnd.1
    · rw [dpop, if_neg h0, dget, if_neg h0]
      exact ih hnd.2

theorem dget_dpop_ne {κ β : Type} [DecidableEq κ] (m : List (κ × β)) (k k' : κ)
    (h : k ≠ k') : dget (dpop m k) k' = dget m k' := by
  induction m with
  | nil => simp [dget, dpop]
  | cons p rest ih =>
    obtain ⟨k0, v0⟩ := p
    by_cases h0 : k0 = k
    · subst h0
      rw [dpop, if_pos rfl, dget, if_neg h]
    · rw [dpop, if_neg h0, dget, dget]
      by_cases h1 : k0 = k'
      · simp [h1]
      · simp [h1, ih]

theorem block_index_at_bounds (x y z : ℤ) :
    0 ≤ block_index_at x y z ∧ block_index_at x y z < 4096 := by
  unfold block_index_at world_to_local_coords calculate_block_index
  simp only
  have hx : 0 ≤ x % 16 ∧ x % 16 < 16 := ⟨Int.emod_nonneg x (by norm_num),
    Int.emod_lt_of_pos x (by norm_num)⟩
  have hz : 0 ≤ z % 16 ∧ z % 16 < 16 := ⟨Int.emod_nonneg z (by norm_num),
    Int.emod_lt_of_pos z (by norm_num)⟩
  have hy : 0 ≤ y - (-64 + (y + 64) / 16 * 16) ∧ y - (-64 + (y + 64) / 16 * 16) < 16 := by
    omega
  omega

theorem foldl_set_length {α : Type} (l : List α) (f : List ℕ → α → List ℕ)
    (hf : ∀ bd a, (f bd a).length = bd.length) (init : List ℕ) :
    (l.foldl f init).length = init.length := by
  induction l generalizing init with
  | nil => rfl
  | cons head tail ih =>
    rw [List.foldl_cons, ih, hf]

theorem generate_initial_chunk_section_length (bm : BlockManager)
    (chunk_x chunk_z section_y ground_y : ℤ) (flat_world use_terrain : Bool) :
    (generate_initial_chunk_section bm chunk_x chunk_z section_y ground_y
      flat_world use_terrain).length = 4096 := by
  unfold generate_initial_chunk_section
  split
  · rw [foldl_set_length]
    · exact List.length_replicate 4096 BLOCK_AIR
    · intro bd y
      rw [foldl_set_length]
      intro bd' z
      rw [foldl_set_length]
      intro bd'' x
      exact List.length_set bd'' _ _
  · dsimp only
    split
    · rw [foldl_set_length]
      · exact List.length_replicate 4096 BLOCK_AIR
      · intro bd y
        dsimp only
        split
        · rw [foldl_set_length]
          intro bd' z
          rw [foldl_set_length]
          intro bd'' x
          exact List.length_set bd'' _ _
        · split
          · rw [foldl_set_length]
            intro bd' z
            rw [foldl_set_length]
            intro bd'' x
            exact List.length_set bd'' _ _
          · rfl
    · split
      · exact List.length_replicate 4096 BLOCK_DIRT
      · exact List.length_replicate 4096 BLOCK_AIR

theorem sections_wf_dset (bm : BlockManager) (key : ℤ × ℤ × ℤ) (v : List ℕ)
    (hwf : sections_wf bm) (hv : v.length = 4096) :
    ∀ k sec, dget (dset bm.block_data key v) k = some sec → sec.length = 4096 := by
  intro k sec hget
  by_cases hk : key = k
  · subst hk
    rw [dget_dset_self] at hget
    cases hget
    exact hv
  · rw [dget_dset_ne _ _ _ _ hk] at hget
    exact hwf k sec hget

theorem dset_dset_self {κ β : Type} [DecidableEq κ] (m : List (κ × β)) (k : κ) (v v' : β) :
    dset (dset m k v) k v' = dset m k v' := by
  induction m with
  | nil => simp [dset]
  | cons p rest ih =>
    obtain ⟨k0, v0⟩ := p
    by_cases h : k0 = k
    · simp [dset, h]
    · simp [dset, h, ih]

theorem set_block_of_present (bm : BlockManager) (x y z : ℤ) (block_state_id : ℕ)
    (sec : List ℕ) (h : dget bm.block_data (section_key_at x y z) = some sec)
    (hlt : block_index_at x y z < (sec.length : ℤ)) :
    BlockManager.set_block bm x y z block_state_id =
      (true,
        { bm with
            block_data := dset bm.block_data (section_key_at x y z)
              (sec.set (block_index_at x y z).toNat block_state_id),
            updated_blocks := bm.updated_blocks.insert (x, y, z) }) := by
  have h0 : 0 ≤ block_index_at x y z := (block_index_at_bounds x y z).1
  unfold BlockManager.set_block
  unfold section_key_at at h
  unfold block_index_at at hlt h0 ⊢
  dsimp only at h hlt h0 ⊢
  rw [h]
  dsimp only
  rw [h]
  dsimp only [Option.getD_some]
  rw [if_pos ⟨h0, hlt⟩]
  rfl

theorem set_block_of_absent (bm : BlockManager) (x y z : ℤ) (block_state_id : ℕ)
    (h : dget bm.block_data (section_key_at x y z) = none) :
    BlockManager.set_block bm x y z block_state_id =
      (true,
        { bm with
            block_data := dset bm.block_data (section_key_at x y z)
              ((generate_initial_chunk_section bm (world_to_local_coords x y z).chunk_x
                  (world_to_local_coords x y z).chunk_z
                  (world_to_local_coords x y z).section_y 64 true false).set
                (block_index_at x y z).toNat block_state_id),
            updated_blocks := bm.updated_blocks.insert (x, y, z) }) := by
  have h0 : 0 ≤ block_index_at x y z := (block_index_at_bounds x y z).1
  have h1 : block_index_at x y z < 4096 := (block_index_at_bounds x y z).2
  have hgen := generate_initial_chunk_section_length bm (world_to_local_coords x y z).chunk_x
    (world_to_local_coords x y z).chunk_z (world_to_local_coords x y z).section_y 64 true false
  unfold BlockManager.set_block
  unfold section_key_at at h ⊢
  unfold block_index_at at h0 h1 ⊢
  dsimp only at h h0 h1 ⊢
  rw [h]
  dsimp only
  rw [dget_dset_self]
  dsimp only [Option.getD_some]
  rw [if_pos ⟨h0, by rw [hgen]; exact_mod_cast h1⟩, dset_dset_self]

/-- C9.  Every section stored in the block manager's mapping has length
exactly 4096: `generate_initial_chunk_section` always returns 4096 entries,
and both `load_chunk` and `set_block` (including its lazy materialization)
preserve the all-sections-have-length-4096 invariant. -/
theorem section_length_four_k_invariant :
    (∀ (bm : BlockManager) (chunk_x chunk_z section_y ground_y : ℤ)
       (flat_world use_terrain : Bool),
      (generate_initial_chunk_section bm chunk_x chunk_z section_y ground_y
        flat_world use_terrain).length = 4096) ∧
    (∀ (bm : BlockManager) (chunk_x chunk_z ground_y : ℤ) (flat_world use_terrain : Bool),
      sections_wf bm →
      sections_wf (BlockManager.load_chunk bm chunk_x chunk_z ground_y flat_world use_terrain)) ∧
    (∀ (bm : BlockManager) (x y z : ℤ) (block_state_id : ℕ),
      sections_wf bm → sections_wf (BlockManager.set_block bm x y z block_state_id).2) := by
  refine ⟨generate_initial_chunk_section_length, ?_, ?_⟩
  · intro bm chunk_x chunk_z ground_y flat_world use_terrain hwf
    unfold BlockManager.load_chunk
    generalize List.range 24 = l
    induction l generalizing bm with
    | nil => exact hwf
    | cons head tail ih =>
      rw [List.foldl_cons]
      exact ih _ (sections_wf_dset _ _ _ hwf (generate_initial_chunk_section_length _ _ _ _ _ _ _))
  · intro bm x y z block_state_id hwf
    cases hd : dget bm.block_data (section_key_at x y z) with
    | none =>
      rw [set_block_of_absent bm x y z block_state_id hd]
      exact fun k sec h =>
        sections_wf_dset bm _ _ hwf
          (by rw [List.length_set]
              exact generate_initial_chunk_section_length _ _ _ _ _ _ _) k sec h
    | some sec0 =>
      have hlen : sec0.length = 4096 := hwf _ _ hd
      rw [set_block_of_present bm x y z block_state_id sec0 hd
        (by rw [hlen]; exact (block_index_at_bounds x y z).2)]
      exact fun k sec h =>
        sections_wf_dset bm _ _ hwf (by rw [List.length_set]; exact hlen) k sec h

theorem section_length_four_k_witness :
    (generate_initial_chunk_section empty_block_manager 0 0 8 64 true false).length = 4096 ∧
    sections_wf (BlockManager.load_chunk empty_block_manager 0 0 64 true false) ∧
    sections_wf (BlockManager.set_block empty_block_manager 0 65 0 7).2 :=
  ⟨section_length_four_k_invariant.1 empty_block_manager 0 0 8 64 true false,
   section_length_four_k_invariant.2.1 empty_block_manager 0 0 64 true false
     (fun k sec h => by simp [empty_block_manager, dget] at h),
   section_length_four_k_invariant.2.2 empty_block_manager 0 65 0 7
     (fun k sec h => by simp [empty_block_manager, dget] at h)⟩

/-- C10.  `get_block` (and hence `is_block_solid`) is total over all integer
coordinates: the computed local index always lies inside `[0, 4096)` (so the
guarded list access never misses on a well-formed section), the result is
air whenever the containing section is not resident, it is the stored entry
whenever the section is resident with its invariant length, and
`is_block_solid` is exactly `get_block ≠ air`. -/
theorem get_block_of_absent_key (bm : BlockManager) (x y z : ℤ)
    (h : dget bm.block_data (section_key_at x y z) = none) :
    bm.get_block x y z = BLOCK_AIR := by
  unfold BlockManager.get_block
  unfold section_key_at at h
  dsimp only at h ⊢
  rw [h]

theorem get_block_of_section (bm : BlockManager) (x y z : ℤ) (sec : List ℕ)
    (h : dget bm.block_data (section_key_at x y z) = some sec) (hlen : sec.length = 4096) :
    bm.get_block x y z = sec.getD (block_index_at x y z).toNat BLOCK_AIR := by
  have h0 := (block_index_at_bounds x y z).1
  have h1 := (block_index_at_bounds x y z).2
  unfold BlockManager.get_block
  unfold section_key_at at h
  unfold block_index_at at h0 h1 ⊢
  dsimp only at h h0 h1 ⊢
  rw [h]
  dsimp only
  rw [if_pos ⟨h0, by rw [hlen]; exact_mod_cast h1⟩]

theorem get_block_total (x y z : ℤ) :
    (0 ≤ block_index_at x y z ∧ block_index_at x y z < 4096) ∧
    (∀ bm : BlockManager, dget bm.block_data (section_key_at x y z) = none →
      bm.get_block x y z = BLOCK_AIR) ∧
    (∀ (bm : BlockManager) (sec : List ℕ),
      dget bm.block_data (section_key_at x y z) = some sec → sec.length = 4096 →
      bm.get_block x y z = sec.getD (block_index_at x y z).toNat BLOCK_AIR) ∧
    (∀ bm : BlockManager, bm.is_block_solid x y z = (bm.get_block x y z != BLOCK_AIR)) := by
  exact ⟨block_index_at_bounds x y z,
    fun bm h => get_block_of_absent_key bm x y z h,
    fun bm sec h hlen => get_block_of_section bm x y z sec h hlen,
    fun bm => rfl⟩

theorem get_block_total_witness :
    (0 ≤ block_index_at (-1) 400 (-17) ∧ block_index_at (-1) 400 (-17) < 4096) ∧
    empty_block_manager.get_block (-1) 400 (-17) = BLOCK_AIR ∧
    empty_block_manager.is_block_solid (-1) 400 (-17) =
      (empty_block_manager.get_block (-1) 400 (-17) != BLOCK_AIR) :=
  ⟨(get_block_total (-1) 400 (-17)).1,
   (get_block_total (-1) 400 (-17)).2.1 empty_block_manager rfl,
   (get_block_total (-1) 400 (-17)).2.2.2 empty_block_manager⟩

theorem build_section_take_two (bm : BlockManager) (chunk_x chunk_z section_idx : ℤ)
    (hcnt : (bm.get_chunk_section_for_protocol chunk_x chunk_z section_idx).1 ≤ 4096) :
    ∀ bs, build_section_bytes bm chunk_x chunk_z section_idx = some bs →
      bs.take 2 = [(bm.get_chunk_section_for_protocol chunk_x chunk_z section_idx).1 / 256,
        (bm.get_chunk_section_for_protocol chunk_x chunk_z section_idx).1 % 256] := by
  intro bs hbs
  rcases hr : bm.get_chunk_section_for_protocol chunk_x chunk_z section_idx with ⟨cnt, pal, ind⟩
  rw [hr] at hcnt
  unfold build_section_bytes at hbs
  rw [hr] at hbs
  dsimp only at hbs hcnt ⊢
  have hshort : write_short_bytes (cnt : ℤ) = some [cnt / 256, cnt % 256] := by
    unfold write_short_bytes
    rw [if_pos (by constructor <;> omega)]
    have e1 : (((cnt : ℤ) % 65536) / 256).toNat = cnt / 256 := by omega
    have e2 : (((cnt : ℤ) % 65536) % 256).toNat = cnt % 256 := by omega
    rw [e1, e2]
  rw [hshort] at hbs
  simp only [Option.pure_def, Option.bind_eq_bind, Option.some_bind] at hbs
  rw [Option.bind_eq_some] at hbs
  obtain ⟨cont, _, hbs⟩ := hbs
  have hb0 : write_byte_bytes 0 = some [0] := by decide
  have hv0 : write_varint 5 0 = some [0] := by decide
  rw [hb0] at hbs
  simp only [Option.some_bind] at hbs
  rw [hv0] at hbs
  simp only [Option.some_bind] at hbs
  cases hbs
  simp

/-- C4.  For a resident section (with its invariant length 4096),
`get_chunk_section_for_protocol` returns the non-air count, the sorted
duplicate-free palette of exactly the ids present, and 4096 palette indices
mapping every block to its id; an absent section yields
`(0, [air], [0]*4096)`; and whatever the serializer manages to emit for the
section starts with exactly this non-air count as a big-endian `int16`. -/
theorem chunk_section_for_protocol_spec :
    (∀ (bm : BlockManager) (chunk_x chunk_z section_y : ℤ) (sec : List ℕ),
      bm.get_chunk_section chunk_x chunk_z section_y = some sec → sec.length = 4096 →
      (bm.get_chunk_section_for_protocol chunk_x chunk_z section_y).1 =
        sec.countP (fun b => b != BLOCK_AIR) ∧
      List.Sorted (· ≤ ·) (bm.get_chunk_section_for_protocol chunk_x chunk_z section_y).2.1 ∧
      (bm.get_chunk_section_for_protocol chunk_x chunk_z section_y).2.1.Nodup ∧
      (∀ b, b ∈ (bm.get_chunk_section_for_protocol chunk_x chunk_z section_y).2.1 ↔ b ∈ sec) ∧
      (bm.get_chunk_section_for_protocol chunk_x chunk_z section_y).2.2.length = 4096 ∧
      (∀ i, i < 4096 →
        (bm.get_chunk_section_for_protocol chunk_x chunk_z section_y).2.2.getD i 0 <
          (bm.get_chunk_section_for_protocol chunk_x chunk_z section_y).2.1.length ∧
        (bm.get_chunk_section_for_protocol chunk_x chunk_z section_y).2.1.getD
          ((bm.get_chunk_section_for_protocol chunk_x chunk_z section_y).2.2.getD i 0) 0 =
          sec.getD i 0) ∧
      (∀ bs, build_section_bytes bm chunk_x chunk_z section_y = some bs →
        bs.take 2 = [sec.countP (fun b => b != BLOCK_AIR) / 256,
          sec.countP (fun b => b != BLOCK_AIR) % 256])) ∧
    (∀ (bm : BlockManager) (chunk_x chunk_z section_y : ℤ),
      bm.get_chunk_section chunk_x chunk_z section_y = none →
      bm.get_chunk_section_for_protocol chunk_x chunk_z section_y =
        (0, [BLOCK_AIR], List.replicate 4096 0) ∧
      (∀ bs, build_section_bytes bm chunk_x chunk_z section_y = some bs →
        bs.take 2 = [0, 0])) := by
  constructor
  · intro bm chunk_x chunk_z section_y sec h hlen
    have hproto : bm.get_chunk_section_for_protocol chunk_x chunk_z section_y =
        (sec.countP (fun b => b != BLOCK_AIR), sec.toFinset.sort (· ≤ ·),
          sec.map (fun b => (sec.toFinset.sort (· ≤ ·)).indexOf b)) := by
      unfold BlockManager.get_chunk_section_for_protocol
      rw [h]
    have hcnt : sec.countP (fun b => b != BLOCK_AIR) ≤ 4096 := by
      calc sec.countP (fun b => b != BLOCK_AIR) ≤ sec.length := List.countP_le_length _
        _ = 4096 := hlen
    refine ⟨by rw [hproto], ?_, ?_, ?_, ?_, ?_, ?_⟩
    · rw [hproto]
      show List.Sorted (· ≤ ·) (sec.toFinset.sort (· ≤ ·))
      exact Finset.sort_sorted _ _
    · rw [hproto]
      show (sec.toFinset.sort (· ≤ ·)).Nodup
      exact Finset.sort_nodup _ _
    · intro b
      rw [hproto]
      show b ∈ sec.toFinset.sort (· ≤ ·) ↔ b ∈ sec
      rw [Finset.mem_sort, List.mem_toFinset]
    · rw [hproto]
      show (sec.map _).length = 4096
      rw [List.length_map, hlen]
    · intro i hi
      rw [hproto]
      have hi' : i < sec.length := by omega
      have hgetmap : (sec.map (fun b => (sec.toFinset.sort (· ≤ ·)).indexOf b)).getD i 0 =
          (sec.toFinset.sort (· ≤ ·)).indexOf sec[i] := by
        rw [List.getD_eq_getElem _ _ (by rw [List.length_map]; exact hi'), List.getElem_map]
      have hmem : sec[i] ∈ sec.toFinset.sort (· ≤ ·) := by
        rw [Finset.mem_sort, List.mem_toFinset]
        exact sec.getElem_mem hi'
      have hlt : (sec.toFinset.sort (· ≤ ·)).indexOf sec[i] <
          (sec.toFinset.sort (· ≤ ·)).length := List.indexOf_lt_length.mpr hmem
      constructor
      · show (sec.map _).getD i 0 < (sec.toFinset.sort (· ≤ ·)).length
        rw [hgetmap]
        exact hlt
      · show (sec.toFinset.sort (· ≤ ·)).getD ((sec.map _).getD i 0) 0 = sec.getD i 0
        rw [hgetmap, List.getD_eq_getElem _ _ hlt, List.getD_eq_getElem _ _ hi']
        exact List.indexOf_get hlt
    · intro bs hbs
      have := build_section_take_two bm chunk_x chunk_z section_y
        (by rw [hproto]; exact hcnt) bs hbs
      rw [hproto] at this
      exact this
  · intro bm chunk_x chunk_z section_y h
    have hproto : bm.get_chunk_section_for_protocol chunk_x chunk_z section_y =
        (0, [BLOCK_AIR], List.replicate 4096 0) := by
      unfold BlockManager.get_chunk_section_for_protocol
      rw [h]
    refine ⟨hproto, ?_⟩
    intro bs hbs
    have := build_section_take_two bm chunk_x chunk_z section_y (by rw [hproto]; norm_num) bs hbs
    rw [hproto] at this
    simpa using this

theorem chunk_section_for_protocol_witness :
    (protocol_sample_bm.get_chunk_section_for_protocol 0 0 8).1 =
      flat_section_8.countP (fun b => b != BLOCK_AIR) ∧
    List.Sorted (· ≤ ·) (protocol_sample_bm.get_chunk_section_for_protocol 0 0 8).2.1 ∧
    (protocol_sample_bm.get_chunk_section_for_protocol 0 0 8).2.1.Nodup ∧
    (∀ b, b ∈ (protocol_sample_bm.get_chunk_section_for_protocol 0 0 8).2.1 ↔
      b ∈ flat_section_8) ∧
    (protocol_sample_bm.get_chunk_section_for_protocol 0 0 8).2.2.length = 4096 ∧
    (∀ i, i < 4096 →
      (protocol_sample_bm.get_chunk_section_for_protocol 0 0 8).2.2.getD i 0 <
        (protocol_sample_bm.get_chunk_section_for_protocol 0 0 8).2.1.length ∧
      (protocol_sample_bm.get_chunk_section_for_protocol 0 0 8).2.1.getD
        ((protocol_sample_bm.get_chunk_section_for_protocol 0 0 8).2.2.getD i 0) 0 =
        flat_section_8.getD i 0) ∧
    (∀ bs, build_section_bytes protocol_sample_bm 0 0 8 = some bs →
      bs.take 2 = [flat_section_8.countP (fun b => b != BLOCK_AIR) / 256,
        flat_section_8.countP (fun b => b != BLOCK_AIR) % 256]) :=
  chunk_section_for_protocol_spec.1 protocol_sample_bm 0 0 8 flat_section_8 rfl
    (generate_initial_chunk_section_length empty_block_manager 0 0 8 64 true false)

/-! ### Characterizing fold-of-writes sections

The section generators and the sky-light packer build their arrays by
folding `List.set` writes over coordinate ranges.  The lemmas below recover
individual entries of such a fold: writes at other indices do not change an
entry, and the entry equals whatever the unique iteration writing it left
behind. -/

theorem getD_set_ne (l : List ℕ) (i j a : ℕ) (h : i ≠ j) :
    (l.set i a).getD j 0 = l.getD j 0 := by
  by_cases hj : j < l.length
  · rw [List.getD_eq_getElem _ _ (by rw [List.length_set]; exact hj),
      List.getD_eq_getElem _ _ hj, List.getElem_set, if_neg h]
  · rw [List.getD_eq_default _ _ (by rw [List.length_set]; omega),
      List.getD_eq_default _ _ (by omega)]

theorem getD_set_self (l : List ℕ) (i a : ℕ) (h : i < l.length) :
    (l.set i a).getD i 0 = a := by
  rw [List.getD_eq_getElem _ _ (by rw [List.length_set]; exact h), List.getElem_set, if_pos rfl]

theorem foldl_getD_untouched {α : Type} (l : List α) (f : List ℕ → α → List ℕ) (J : ℕ)
    (hf : ∀ bd a, a ∈ l → (f bd a).getD J 0 = bd.getD J 0) (init : List ℕ) :
    (l.foldl f init).getD J 0 = init.getD J 0 := by
  induction l generalizing init with
  | nil => rfl
  | cons head tail ih =>
    rw [List.foldl_cons, ih (fun bd a ha => hf bd a (List.mem_cons_of_mem _ ha)),
      hf init head (List.mem_cons_self head tail)]

theorem foldl_range_getD (n : ℕ) (f : List ℕ → ℕ → List ℕ) (J L : ℕ) (V : ℕ) (T : ℕ)
    (hT : T < n)
    (hlen : ∀ bd i, (f bd i).length = bd.length)
    (huntouched : ∀ bd i, i < n → i ≠ T → (f bd i).getD J 0 = bd.getD J 0)
    (hvalue : ∀ bd : List ℕ, bd.length = L → (f bd T).getD J 0 = V)
    (init : List ℕ) (hinit : init.length = L) :
    ((List.range n).foldl f init).getD J 0 = V := by
  have hsplit : List.range n = List.range (T + 1) ++
      (List.range (n - (T + 1))).map (fun k => (T + 1) + k) := by
    rw [← List.range_add]
    congr 1
    omega
  rw [hsplit, List.foldl_append]
  rw [foldl_getD_untouched _ f J (fun bd a ha => by
    obtain ⟨k, hk, rfl⟩ := List.mem_map.mp ha
    exact huntouched bd _ (by simp at hk; omega) (by omega))]
  rw [List.range_succ, List.foldl_append, List.foldl_cons, List.foldl_nil]
  rw [hvalue _ (by rw [foldl_set_length _ _ hlen, hinit])]

theorem calculate_block_index_toNat (x y z : ℕ) :
    (calculate_block_index (x : ℤ) (y : ℤ) (z : ℤ)).toNat = y * 256 + z * 16 + x := by
  unfold calculate_block_index
  omega

theorem generate_terrain_getD (bm : BlockManager) (tg : TerrainOracle)
    (h : bm.terrain_generator = some tg) (chunk_x chunk_z section_y ground_y : ℤ)
    (fw : Bool) (X Y Z : ℕ) (hX : X < 16) (hY : Y < 16) (hZ : Z < 16) :
    (generate_initial_chunk_section bm chunk_x chunk_z section_y ground_y fw true).getD
      (Y * 256 + Z * 16 + X) 0 = terrain_cell_value tg chunk_x chunk_z section_y X Y Z := by
  unfold generate_initial_chunk_section
  rw [h]
  dsimp only
  rw [foldl_range_getD 16 _ (Y * 256 + Z * 16 + X) 4096
    (terrain_cell_value tg chunk_x chunk_z section_y X Y Z) Y hY
    (fun bd i => by
      rw [foldl_set_length]
      intro bd' zz
      rw [foldl_set_length]
      intro bd'' xx
      exact List.length_set bd'' _ _)
    (fun bd i hi hne => by
      rw [foldl_getD_untouched]
      intro bd' zz hzz
      rw [foldl_getD_untouched]
      intro bd'' xx hxx
      rw [calculate_block_index_toNat]
      apply getD_set_ne
      simp only [List.mem_range] at hzz hxx
      omega)
    (fun bd hbd => by
      rw [foldl_range_getD 16 _ (Y * 256 + Z * 16 + X) 4096
        (terrain_cell_value tg chunk_x chunk_z section_y X Y Z) Z hZ
        (fun bd' zz => by
          rw [foldl_set_length]
          intro bd'' xx
          exact List.length_set bd'' _ _)
        (fun bd' zz hzz hne => by
          rw [foldl_getD_untouched]
          intro bd'' xx hxx
          rw [calculate_block_index_toNat]
          apply getD_set_ne
          simp only [List.mem_range] at hxx
          omega)
        (fun bd' hbd' => by
          rw [foldl_range_getD 16 _ (Y * 256 + Z * 16 + X) 4096
            (terrain_cell_value tg chunk_x chunk_z section_y X Y Z) X hX
            (fun bd'' xx => List.length_set bd'' _ _)
            (fun bd'' xx hxx hne => by
              rw [calculate_block_index_toNat]
              exact getD_set_ne _ _ _ _ (by omega))
            (fun bd'' hbd'' => by
              rw [calculate_block_index_toNat, getD_set_self _ _ _ (by omega)]
              rfl)
            bd' hbd'])
        bd hbd])
    (List.replicate 4096 BLOCK_AIR) (List.length_replicate 4096 BLOCK_AIR)]

/-- C3, counterexample.  In a terrain-mode world, `set_block(0, 0, 0, 5)`
materializes section `(0, 0, 4)` with the flat generator at `ground_y = 64`
(every untouched cell of it is dirt, e.g. `(1, 0, 0)`), while the active
generator for that chunk — terrain generation, as `load_chunk_blocks` would
invoke it — fills that cell with stone. -/
theorem set_block_lazy_fill_counterexample :
    terrain_world.use_terrain_generation = true ∧
    (terrain_world.set_block 0 0 0 5).block_manager.get_block 1 0 0 = BLOCK_DIRT ∧
    (generate_initial_chunk_section terrain_world.block_manager 0 0 4 64
      false true).getD (block_index_at 1 0 0).toNat 0 = BLOCK_STONE ∧
    BLOCK_DIRT ≠ BLOCK_STONE := by
  refine ⟨rfl, ?_, ?_, by decide⟩
  · have hset := set_block_of_absent terrain_world.block_manager 0 0 0 5 rfl
    have h2 : (terrain_world.set_block 0 0 0 5).block_manager
        = (terrain_world.block_manager.set_block 0 0 0 5).2 := by
      simp only [World.set_block]
    have hgen : generate_initial_chunk_section terrain_world.block_manager
        (world_to_local_coords 0 0 0).chunk_x (world_to_local_coords 0 0 0).chunk_z
        (world_to_local_coords 0 0 0).section_y 64 true false
        = List.replicate 4096 BLOCK_DIRT := rfl
    have hd : dget (terrain_world.block_manager.set_block 0 0 0 5).2.block_data
        (section_key_at 1 0 0) = some ((List.replicate 4096 BLOCK_DIRT).set 0 5) := by
      rw [hset]
      rw [show section_key_at 1 0 0 = section_key_at 0 0 0 from rfl]
      rw [show (block_index_at 0 0 0).toNat = 0 by decide]
      rw [hgen]
      exact dget_dset_self _ _ _
    rw [h2]
    rw [get_block_of_section _ 1 0 0 ((List.replicate 4096 BLOCK_DIRT).set 0 5) hd
      (by rw [List.length_set, List.length_replicate])]
    rw [show (block_index_at 1 0 0).toNat = 1 by decide, show BLOCK_AIR = 0 from rfl]
    rw [getD_set_ne _ _ _ _ (by decide)]
    decide
  rw [show (block_index_at 1 0 0).toNat = 0 * 256 + 0 * 16 + 1 by decide]
  rw [generate_terrain_getD terrain_world.block_manager terrain_const_oracle rfl 0 0 4 64
    false 1 0 0 (by norm_num) (by norm_num) (by norm_num)]
  decide

/-- C3, amended.  For every coordinate with in-range y, `set_block` succeeds
(returns `True`): it materializes an absent section by lazy-filling with the
flat generator at `ground_y = 64` regardless of the world's generator mode,
writes the entry at index `local_y*256 + local_z*16 + local_x`, and adds
`(x, y, z)` to the mutated-blocks set. -/
theorem set_block_spec (bm : BlockManager) (x y z : ℤ) (block_state_id : ℕ)
    (hy1 : -64 ≤ y) (hy2 : y ≤ 319) (hwf : sections_wf bm) :
    (bm.set_block x y z block_state_id).1 = true ∧
    (bm.set_block x y z block_state_id).2.get_block x y z = block_state_id ∧
    (x, y, z) ∈ (bm.set_block x y z block_state_id).2.updated_blocks ∧
    (dget bm.block_data (section_key_at x y z) = none →
      dget (bm.set_block x y z block_state_id).2.block_data (section_key_at x y z) =
        some ((generate_initial_chunk_section bm (world_to_local_coords x y z).chunk_x
          (world_to_local_coords x y z).chunk_z (world_to_local_coords x y z).section_y
          64 true false).set (block_index_at x y z).toNat block_state_id)) := by
  have hb0 := (block_index_at_bounds x y z).1
  have hb1 := (block_index_at_bounds x y z).2
  cases hd : dget bm.block_data (section_key_at x y z) with
  | none =>
    rw [set_block_of_absent bm x y z block_state_id hd]
    have hglen := generate_initial_chunk_section_length bm (world_to_local_coords x y z).chunk_x
      (world_to_local_coords x y z).chunk_z (world_to_local_coords x y z).section_y 64 true false
    refine ⟨rfl, ?_, ?_, fun _ => ?_⟩
    · rw [get_block_of_section _ x y z _ (by exact dget_dset_self _ _ _)
        (by rw [List.length_set, hglen])]
      rw [show BLOCK_AIR = 0 from rfl, getD_set_self _ _ _ (by rw [hglen]; omega)]
    · exact List.mem_insert_self _ _
    · exact dget_dset_self _ _ _
  | some sec =>
    have hlen : sec.length = 4096 := hwf _ _ hd
    rw [set_block_of_present bm x y z block_state_id sec hd (by rw [hlen]; exact_mod_cast hb1)]
    refine ⟨rfl, ?_, ?_, fun hcontra => ?_⟩
    · rw [get_block_of_section _ x y z _ (by exact dget_dset_self _ _ _)
        (by rw [List.length_set, hlen])]
      rw [show BLOCK_AIR = 0 from rfl, getD_set_self _ _ _ (by rw [hlen]; omega)]
    · exact List.mem_insert_self _ _
    · exact Option.noConfusion hcontra

theorem set_block_spec_witness :
    (empty_block_manager.set_block 0 65 0 7).1 = true ∧
    (empty_block_manager.set_block 0 65 0 7).2.get_block 0 65 0 = 7 ∧
    (0, 65, 0) ∈ (empty_block_manager.set_block 0 65 0 7).2.updated_blocks ∧
    (dget empty_block_manager.block_data (section_key_at 0 65 0) = none →
      dget (empty_block_manager.set_block 0 65 0 7).2.block_data (section_key_at 0 65 0) =
        some ((generate_initial_chunk_section empty_block_manager
          (world_to_local_coords 0 65 0).chunk_x (world_to_local_coords 0 65 0).chunk_z
          (world_to_local_coords 0 65 0).section_y 64 true false).set
          (block_index_at 0 65 0).toNat 7)) :=
  set_block_spec empty_block_manager 0 65 0 7 (by norm_num) (by norm_num)
    (fun k sec h => by simp [empty_block_manager, dget] at h)

/-- C6.  The `+x` snap branch is dead code: the clamp sets `velocity_x = 0.0`
*before* testing `velocity_x > 0`, so whenever the x-clamp triggers — in either
direction — the entity is snapped to `floor(x) + 0.01`, the `-x` edge.  First
conjunct: any triggered x-clamp lands on `floor(x) + 0.01`.  Second conjunct:
a full tick on an entity at `x = 0.9` moving `+x` into a wall at `x = 1` ends
at `x = 0.01` with zero x-velocity, whereas the claim requires the `+x`-adjacent
edge `floor(0.9) + 1 - margin = 0.99`. -/
theorem clamp_positive_x_dead_branch :
    (∀ (w : World) (e : ItemEntity) (xf yf zf : ℤ),
      e.velocity_x ≠ 0 →
      pyInt (e.x + e.velocity_x * 1) ≠ xf →
      (w.is_block_solid (pyInt (e.x + e.velocity_x * 1)) yf zf ||
        w.is_block_solid (pyInt (e.x + e.velocity_x * 1)) (yf + 1) zf) = true →
      clamp_axis_x w e xf yf zf = { e with velocity_x := 0, x := (xf : ℚ) + 0.01 }) ∧
    (dget (wC6.update_item_entities).item_entities 7).map (fun e => (e.x, e.velocity_x))
      = some (1/100, 0) ∧
    (1 : ℚ)/100 ≠ 1 - 1/100 := by
  refine ⟨?_, ?_, by norm_num⟩
  · intro w e xf yf zf h1 h2 h3
    unfold clamp_axis_x
    rw [if_pos h1]
    dsimp only
    rw [if_pos h2, if_pos h3, if_neg (lt_irrefl (0 : ℚ))]
  · norm_num [World.update_item_entities, update_one_entity, resolve_collision, finish_cache_hit,
      clamp_axis_x, clamp_axis_z, World.check_line_intersects_solid_block, check_line_loop,
      line_segment_intersects_aabb, slab_update, optLt, optAdd, dget, dset, dpop, pyInt,
      GRAVITY, DRAG, World.is_block_solid, BlockManager.is_block_solid, BlockManager.get_block,
      world_to_local_coords, calculate_block_index, BLOCK_AIR, BLOCK_GRASS_BLOCK,
      World.load_chunk_blocks, BlockManager.is_chunk_loaded, BlockManager.get_updated_blocks,
      BlockManager.clear_updated_blocks, wC6, grass_slab_bm, List.foldl]

theorem clamp_positive_x_dead_branch_witness :
    clamp_axis_x wC6 ⟨9/10, 129/2, 1/2, 49/100, 0, 0, 99, 1⟩ 0 64 0 =
      { (⟨9/10, 129/2, 1/2, 49/100, 0, 0, 99, 1⟩ : ItemEntity) with
          velocity_x := 0, x := ((0 : ℤ) : ℚ) + 0.01 } := by
  have hs : wC6.block_manager.get_block 1 64 0 = BLOCK_GRASS_BLOCK := by
    rw [get_block_of_section wC6.block_manager 1 64 0 (List.replicate 4096 BLOCK_GRASS_BLOCK)
      rfl (List.length_replicate _ _)]
    decide
  refine clamp_positive_x_dead_branch.1 wC6 _ 0 64 0 (by norm_num) ?_ ?_
  · show pyInt (9/10 + 49/100 * 1) ≠ 0
    norm_num [pyInt]
  · have hfl : pyInt ((9:ℚ)/10 + 49/100 * 1) = 1 := by norm_num [pyInt]
    rw [show ((⟨9/10, 129/2, 1/2, 49/100, 0, 0, 99, 1⟩ : ItemEntity).x +
        (⟨9/10, 129/2, 1/2, 49/100, 0, 0, 99, 1⟩ : ItemEntity).velocity_x * 1)
        = (9:ℚ)/10 + 49/100 * 1 from rfl, hfl]
    rw [Bool.or_eq_true]
    left
    show (wC6.block_manager.get_block 1 64 0 != BLOCK_AIR) = true
    rw [hs]
    decide

/-! ### Cache invalidation by block mutations (C2) -/

theorem mem_keys_dset {κ β : Type} [DecidableEq κ] (m : List (κ × β)) (k k' : κ) (v : β)
    (h : k' ∈ (dset m k v).map Prod.fst) : k' ∈ m.map Prod.fst ∨ k' = k := by
  induction m with
  | nil =>
    simp only [dset, List.map_cons, List.map_nil, List.mem_singleton] at h
    exact Or.inr h
  | cons head tail ih =>
    rw [dset] at h
    by_cases hk : head.1 = k
    · rw [if_pos hk] at h
      rcases List.mem_cons.1 h with h1 | h1
      · exact Or.inr h1
      · exact Or.inl (List.mem_cons_of_mem _ h1)
    · rw [if_neg hk] at h
      rcases List.mem_cons.1 h with h1 | h1
      · exact Or.inl (h1 ▸ List.mem_cons_self _ _)
      · rcases ih h1 with h2 | h2
        · exact Or.inl (List.mem_cons_of_mem _ h2)
        · exact Or.inr h2

theorem dset_keys_nodup {κ β : Type} [DecidableEq κ] (m : List (κ × β)) (k : κ) (v : β)
    (hnd : (m.map Prod.fst).Nodup) : ((dset m k v).map Prod.fst).Nodup := by
  induction m with
  | nil => simp [dset]
  | cons head tail ih =>
    rw [List.map_cons, List.nodup_cons] at hnd
    rw [dset]
    by_cases hk : head.1 = k
    · rw [if_pos hk, List.map_cons, List.nodup_cons]
      exact ⟨hk ▸ hnd.1, hnd.2⟩
    · rw [if_neg hk, List.map_cons, List.nodup_cons]
      refine ⟨fun hmem => ?_, ih hnd.2⟩
      rcases mem_keys_dset tail k head.1 v hmem with h2 | h2
      · exact hnd.1 h2
      · exact hk h2

/-- Replacing the collision-cache table leaves the line-vs-solid check
unchanged (it reads only the block manager). -/
theorem check_line_cache_irrel (w : World) (X : List (ℕ × CollisionCache))
    (a b : ℚ × ℚ × ℚ) :
    World.check_line_intersects_solid_block { w with entity_collision_cache := X } a b =
      w.check_line_intersects_solid_block a b := rfl

/-- C2, amended.  A mutation of a checked block never simply re-enables
gravity: it forces a full recheck on the next tick, whose outcome decides the
cache.  For a world with a single resting item entity whose cache has
`gravity_disabled` set, if any block of `blocks_checked` was mutated, then
after the tick the entity's cache entry is gone when the recheck finds no
solid intersection (gravity truly resumes on the following tick), and is a
fresh entry with `gravity_disabled = true` again when the entity still
intersects a solid block (it stays frozen). -/
theorem gravity_refreeze_or_release (w : World) (eid : ℕ) (e : ItemEntity) (c : CollisionCache)
    (hent : w.item_entities = [(eid, e)])
    (hndc : (w.entity_collision_cache.map Prod.fst).Nodup)
    (hc : dget w.entity_collision_cache eid = some c)
    (hg : c.gravity_disabled = true)
    (hne : c.blocks_checked ≠ [])
    (hany : c.blocks_checked.any
      (fun b => decide (b ∈ w.block_manager.get_updated_blocks)) = true)
    (hvx : e.velocity_x = 0) (hvy : e.velocity_y = 0) (hvz : e.velocity_z = 0)
    (hpos : c.position = (e.x, e.y, e.z)) (hvel : c.velocity = (0, 0, 0))
    (hload : w.block_manager.is_chunk_loaded (pyInt e.x / 16) (pyInt e.z / 16) = true) :
    dget (w.update_item_entities).entity_collision_cache eid =
      if (w.check_line_intersects_solid_block (e.x, e.y, e.z) (e.x, e.y, e.z)).1 then
        some ⟨(w.check_line_intersects_solid_block (e.x, e.y, e.z) (e.x, e.y, e.z)).2,
          true, (e.x, e.y, e.z), (0, 0, 0), true⟩
      else none := by
  unfold World.update_item_entities
  rw [hent]
  norm_num [List.foldl_cons, List.foldl_nil, update_one_entity, hc, hg, hne, hany,
    hvx, hvy, hvz, hpos, hvel, hload, clamp_axis_x, clamp_axis_z]
  unfold resolve_collision
  rw [check_line_cache_irrel]
  by_cases hr : (w.check_line_intersects_solid_block (e.x, e.y, e.z) (e.x, e.y, e.z)).1
  · rw [if_pos hr, if_pos hr]
    exact dget_dset_self _ _ _
  · rw [if_neg hr, if_neg hr]
    exact dget_dpop_self _ _ (dset_keys_nodup _ _ _ hndc)

theorem set_slab_frozen :
    slab_frozen_world.set_block 0 64 0 BLOCK_STONE = slab_frozen_world_mined := by
  show { slab_frozen_world with
    block_manager := (slab_frozen_world.block_manager.set_block 0 64 0 BLOCK_STONE).2 } =
    slab_frozen_world_mined
  rw [set_block_of_present slab_frozen_world.block_manager 0 64 0 BLOCK_STONE
    (List.replicate 4096 BLOCK_GRASS_BLOCK) rfl (by rw [List.length_replicate]; decide)]
  have h1 : (block_index_at 0 64 0).toNat = 0 := by decide
  have h2 : (List.replicate 4096 BLOCK_GRASS_BLOCK).set 0 BLOCK_STONE =
      BLOCK_STONE :: List.replicate 4095 BLOCK_GRASS_BLOCK := by
    rw [show (4096 : ℕ) = 4095 + 1 from rfl, List.replicate_succ, List.set_cons_zero]
  rw [h1, h2]
  rfl

theorem set_perch : perch_world.set_block 0 64 0 BLOCK_AIR = perch_world_mined := by
  show { perch_world with
    block_manager := (perch_world.block_manager.set_block 0 64 0 BLOCK_AIR).2 } =
    perch_world_mined
  rw [set_block_of_present perch_world.block_manager 0 64 0 BLOCK_AIR
    (BLOCK_GRASS_BLOCK :: List.replicate 4095 BLOCK_AIR) rfl
    (by rw [List.length_cons, List.length_replicate]; decide)]
  have h1 : (block_index_at 0 64 0).toNat = 0 := by decide
  rw [h1, List.set_cons_zero]
  rfl

/-- C2, counterexample.  `frozen_entity` is frozen inside the grass slab with
`(0, 64, 0)` in its cache's `blocks_checked`; that block is then mutated by
`set_block` (so it lands in the mutated set).  On the next tick the flag is
indeed cleared mid-tick, but the forced recheck still finds the entity inside
solid blocks and re-freezes it: after the tick its cache has
`gravity_disabled = true`, so gravity does not apply again. -/
theorem gravity_refreeze_counterexample :
    frozen_cache.gravity_disabled = true ∧
    (0, 64, 0) ∈ frozen_cache.blocks_checked ∧
    (slab_frozen_world.set_block 0 64 0 BLOCK_STONE).block_manager.get_updated_blocks
      = [(0, 64, 0)] ∧
    (dget (World.update_item_entities
        (slab_frozen_world.set_block 0 64 0 BLOCK_STONE)).entity_collision_cache 5).map
      (fun cc => cc.gravity_disabled) = some true := by
  refine ⟨rfl, by decide, ?_, ?_⟩
  · rw [set_slab_frozen]
    rfl
  · rw [set_slab_frozen]
    norm_num [World.update_item_entities, update_one_entity, resolve_collision,
      finish_cache_hit, clamp_axis_x, clamp_axis_z, World.check_line_intersects_solid_block,
      check_line_loop, line_segment_intersects_aabb, slab_update, optLt, optAdd, dget, dset,
      dpop, pyInt, GRAVITY, DRAG, World.is_block_solid, BlockManager.is_block_solid,
      BlockManager.get_block, world_to_local_coords, calculate_block_index, BLOCK_AIR,
      BLOCK_GRASS_BLOCK, BLOCK_STONE, World.load_chunk_blocks, BlockManager.is_chunk_loaded,
      BlockManager.get_updated_blocks, BlockManager.clear_updated_blocks,
      slab_frozen_world_mined, frozen_entity, frozen_cache, List.foldl]

theorem gravity_refreeze_or_release_witness :
    dget (World.update_item_entities
      (perch_world.set_block 0 64 0 BLOCK_AIR)).entity_collision_cache 5 = none := by
  rw [set_perch]
  have hpy : pyInt ((1 : ℚ)/2) = 0 := by norm_num [pyInt]
  have hload : perch_world_mined.block_manager.is_chunk_loaded
      (pyInt frozen_entity.x / 16) (pyInt frozen_entity.z / 16) = true := by
    show perch_world_mined.block_manager.is_chunk_loaded
      (pyInt ((1 : ℚ)/2) / 16) (pyInt ((1 : ℚ)/2) / 16) = true
    rw [hpy]
    rfl
  have hr : (perch_world_mined.check_line_intersects_solid_block
      (frozen_entity.x, frozen_entity.y, frozen_entity.z)
      (frozen_entity.x, frozen_entity.y, frozen_entity.z)).1 = false := by
    norm_num [World.check_line_intersects_solid_block, check_line_loop,
      line_segment_intersects_aabb, slab_update, optLt, optAdd, pyInt,
      World.is_block_solid, BlockManager.is_block_solid, BlockManager.get_block, dget,
      world_to_local_coords, calculate_block_index, BLOCK_AIR, BLOCK_GRASS_BLOCK,
      perch_world_mined, frozen_entity]
  rw [gravity_refreeze_or_release perch_world_mined 5 frozen_entity frozen_cache rfl
    (by decide) rfl rfl (by decide) (by decide) rfl rfl rfl rfl rfl hload]
  rw [hr]
  rfl

theorem foldl_range_getD_pair (n : ℕ) (f : List ℕ → ℕ → List ℕ) (J L : ℕ) (V : ℕ) (T : ℕ)
    (hT : T + 1 < n)
    (hlen : ∀ bd i, (f bd i).length = bd.length)
    (huntouched : ∀ bd i, i < n → i ≠ T → i ≠ T + 1 → (f bd i).getD J 0 = bd.getD J 0)
    (hvalue : ∀ bd : List ℕ, bd.length = L → (f (f bd T) (T + 1)).getD J 0 = V)
    (init : List ℕ) (hinit : init.length = L) :
    ((List.range n).foldl f init).getD J 0 = V := by
  have hsplit : List.range n = List.range (T + 2) ++
      (List.range (n - (T + 2))).map (fun k => (T + 2) + k) := by
    rw [← List.range_add]
    congr 1
    omega
  rw [hsplit, List.foldl_append]
  rw [foldl_getD_untouched _ f J (fun bd a ha => by
    obtain ⟨k, hk, rfl⟩ := List.mem_map.mp ha
    exact huntouched bd _ (by simp at hk; omega) (by omega) (by omega))]
  rw [show T + 2 = (T + 1) + 1 from rfl, List.range_succ, List.foldl_append, List.foldl_cons,
    List.foldl_nil, List.range_succ, List.foldl_append, List.foldl_cons, List.foldl_nil]
  rw [hvalue _ (by rw [foldl_set_length _ _ hlen, hinit])]

theorem sky_light_value_toNat_lt (ut : Bool) (hm : ℕ → ℤ) (wy : ℤ) (z x : ℕ) :
    (sky_light_value ut hm wy z x).toNat < 16 := by
  unfold sky_light_value
  cases ut <;> dsimp only <;> split <;> omega

theorem nibble_pack_eq : ∀ a < 16, ∀ b < 16,
    ((a <<< 4) &&& 0xF0) ||| (b &&& 0x0F) = 16 * a + b := by decide

theorem sky_light_section_getD (ut : Bool) (hm : ℕ → ℤ) (section_idx : ℤ)
    (Y Z j : ℕ) (hY : Y < 16) (hZ : Z < 16) (hj : j < 8) :
    (sky_light_section ut hm section_idx).getD (Y * 128 + Z * 8 + j) 0 =
      (((sky_light_value ut hm (-64 + section_idx * 16 + (Y : ℤ)) Z (2 * j)).toNat <<< 4)
          &&& 0xF0) |||
        ((sky_light_value ut hm (-64 + section_idx * 16 + (Y : ℤ)) Z (2 * j + 1)).toNat
          &&& 0x0F) := by
  unfold sky_light_section
  dsimp only
  rw [foldl_range_getD 16 _ (Y * 128 + Z * 8 + j) 2048 _ Y hY
    (fun bd i => by
      rw [foldl_set_length]
      intro bd' zz
      rw [foldl_set_length]
      intro bd'' xx
      exact List.length_set bd'' _ _)
    (fun bd i hi hne => by
      rw [foldl_getD_untouched]
      intro bd' zz hzz
      rw [foldl_getD_untouched]
      intro bd'' xx hxx
      apply getD_set_ne
      simp only [List.mem_range] at hzz hxx
      omega)
    (fun bd hbd => by
      rw [foldl_range_getD 16 _ (Y * 128 + Z * 8 + j) 2048 _ Z hZ
        (fun bd' zz => by
          rw [foldl_set_length]
          intro bd'' xx
          exact List.length_set bd'' _ _)
        (fun bd' zz hzz hne => by
          rw [foldl_getD_untouched]
          intro bd'' xx hxx
          apply getD_set_ne
          simp only [List.mem_range] at hxx
          omega)
        (fun bd' hbd' => by
          rw [foldl_range_getD_pair 16 _ (Y * 128 + Z * 8 + j) 2048 _ (2 * j)
            (by omega)
            (fun bd'' xx => List.length_set bd'' _ _)
            (fun bd'' xx hxx hne hne' => getD_set_ne _ _ _ _ (by omega))
            (fun bd'' hbd'' => by
              rw [show (Y * 256 + Z * 16 + (2 * j + 1)) / 2 = Y * 128 + Z * 8 + j
                  from by omega,
                show (Y * 256 + Z * 16 + 2 * j) / 2 = Y * 128 + Z * 8 + j from by omega,
                if_pos (show (Y * 256 + Z * 16 + 2 * j) % 2 = 0 from by omega),
                if_neg (show ¬((Y * 256 + Z * 16 + (2 * j + 1)) % 2 = 0) from by omega)]
              rw [getD_set_self
                (bd''.set (Y * 128 + Z * 8 + j)
                  (((sky_light_value ut hm (-64 + section_idx * 16 + (Y : ℤ)) Z
                    (2 * j)).toNat <<< 4) &&& 0xF0))
                (Y * 128 + Z * 8 + j) _
                (by rw [List.length_set, hbd'']; omega)]
              rw [getD_set_self bd'' (Y * 128 + Z * 8 + j) _ (by rw [hbd'']; omega)])
            bd' hbd'])
        bd hbd])
    (List.replicate 2048 0) (List.length_replicate 2048 0)]

/-- C5, amended.  Every emitted sky-light array has 2048 bytes; byte `i`
holds the 4-bit value of block `2*i` in its HIGH nibble and the value of
block `2*i + 1` in its low nibble (byte = `16*v(2i) + v(2i+1)`), where the
value of block `k` (coordinates `y = k/256`, `z = k%256/16`, `x = k%16`)
is 15 at or above the column height and `max(0, 15 - (height - y))` below
it (ground 64 in flat mode). -/
theorem sky_light_byte_spec (ut : Bool) (hm : ℕ → ℤ) (section_idx : ℤ) :
    (sky_light_section ut hm section_idx).length = 2048 ∧
    ∀ i, i < 2048 →
      (sky_light_section ut hm section_idx).getD i 0 =
        16 * (sky_light_value ut hm (-64 + section_idx * 16 + ((2 * i / 256 : ℕ) : ℤ))
            (2 * i % 256 / 16) (2 * i % 16)).toNat +
          (sky_light_value ut hm (-64 + section_idx * 16 + (((2 * i + 1) / 256 : ℕ) : ℤ))
            ((2 * i + 1) % 256 / 16) ((2 * i + 1) % 16)).toNat := by
  constructor
  · unfold sky_light_section
    dsimp only
    rw [foldl_set_length]
    · exact List.length_replicate 2048 0
    · intro bd y
      rw [foldl_set_length]
      intro bd' z
      rw [foldl_set_length]
      intro bd'' x
      exact List.length_set bd'' _ _
  · intro i hi
    have h := sky_light_section_getD ut hm section_idx (i / 128) (i % 128 / 8) (i % 8)
      (by omega) (by omega) (by omega)
    rw [show i / 128 * 128 + i % 128 / 8 * 8 + i % 8 = i from by omega] at h
    rw [h]
    rw [show 2 * i / 256 = i / 128 from by omega,
      show 2 * i % 256 / 16 = i % 128 / 8 from by omega,
      show 2 * i % 16 = 2 * (i % 8) from by omega,
      show (2 * i + 1) / 256 = i / 128 from by omega,
      show (2 * i + 1) % 256 / 16 = i % 128 / 8 from by omega,
      show (2 * i + 1) % 16 = 2 * (i % 8) + 1 from by omega]
    exact nibble_pack_eq _ (sky_light_value_toNat_lt ut hm _ _ _) _
      (sky_light_value_toNat_lt ut hm _ _ _)

theorem sky_light_byte_spec_witness :
    (5 : ℕ) < 2048 ∧
    (sky_light_section false (fun _ => 0) 8).getD 5 0 =
      16 * (sky_light_value false (fun _ => 0) (-64 + 8 * 16 + ((2 * 5 / 256 : ℕ) : ℤ))
          (2 * 5 % 256 / 16) (2 * 5 % 16)).toNat +
        (sky_light_value false (fun _ => 0) (-64 + 8 * 16 + (((2 * 5 + 1) / 256 : ℕ) : ℤ))
          ((2 * 5 + 1) % 256 / 16) ((2 * 5 + 1) % 16)).toNat :=
  ⟨by norm_num, (sky_light_byte_spec false (fun _ => 0) 8).2 5 (by norm_num)⟩

/-- C5, counterexample.  In section 4 (world y starting at 0) with `demo_hm`,
block 0 (deep below its 200-high column) has light value 0 while block 1 (at
its column's surface) has value 15.  The code packs byte 0 as `16*0 + 15 =
15` (even block in the HIGH nibble); the claim's low-nibble-first packing
would give `0 + 16*15 = 240`. -/
theorem sky_light_nibble_counterexample :
    (sky_light_section true demo_hm 4).getD 0 0 = 15 ∧
    sky_light_byte_claim true demo_hm 4 0 = 240 ∧
    (15 : ℕ) ≠ 240 := by
  refine ⟨?_, by decide, by decide⟩
  have h := sky_light_section_getD true demo_hm 4 0 0 0 (by omega) (by omega) (by omega)
  rw [show (0 : ℕ) * 128 + 0 * 8 + 0 = 0 from rfl] at h
  rw [h]
  decide
